import Mathlib

/-!
# Verification of the media_viz timeline layout engine

Shallow embedding of the core of `src/app/timeline_data.py` (slot allocator,
fade-profile generator, bar assembler) and `src/app/utils.py` (week index),
together with proofs of the specified properties.

Python integers are modelled as `Int` (with `Int.fdiv` / `Int.emod` for
Python's floor-division `//` and nonnegative `%`), opacities as `ℚ`
(`np.linspace(0.9, 0.0, 16)` produces exact multiples of 0.06, so after
`round(_, 2)` the float values coincide with the rational ones), Python
dicts keyed by `entry_idx` as functions `Nat → Option SlotInfo`, and the
mutable list `slot_free_at` as a `List Int` passed through a fold.
-/

namespace MediaViz

/-- `FADE_WEEKS_IN_PROGRESS = 4` from `timeline_data.py`. -/
def FADE_WEEKS_IN_PROGRESS : Int := 4

/-- `FADE_WEEKS_FINISH_ONLY = 4` from `timeline_data.py`. -/
def FADE_WEEKS_FINISH_ONLY : Int := 4

/-- `SLICES_PER_WEEK = 4` from `timeline_data.py`. -/
def SLICES_PER_WEEK : Int := 4

/-- `MAX_SLOTS = 5` from `timeline_data.py`. -/
def MAX_SLOTS : Nat := 5

/-- `MAX_OPACITY = 0.9` from `timeline_data.py`. -/
def MAX_OPACITY : ℚ := 9 / 10

/-- `MIN_OPACITY = 0.0` from `timeline_data.py`. -/
def MIN_OPACITY : ℚ := 0

/-- A span record as consumed by `_allocate_slots` / `_generate_bars`:
the fields `start_week`, `end_week`, `entry_idx` of the Python span dicts
(display metadata is opaque to the scheduler and omitted). `none` models a
missing/`None` week. -/
structure Span where
  start_week : Option Int
  end_week : Option Int
  entry_idx : Nat
deriving Repr, DecidableEq

/-- A value of the `slot_allocations` dict: either a plain slot number, or
the `{"fade_out_slot": _, "fade_in_slot": _}` dict stored for split spans. -/
inductive SlotInfo where
  | single (slot : Nat)
  | split (fade_out_slot fade_in_slot : Nat)
deriving Repr, DecidableEq

/-- State threaded through `_allocate_slots`: the `slot_allocations` dict and
the `slot_free_at` list. -/
structure AllocState where
  alloc : Nat → Option SlotInfo
  slot_free_at : List Int

/-- Python dict assignment `d[k] = v`. -/
def dictInsert (m : Nat → Option SlotInfo) (k : Nat) (v : SlotInfo) :
    Nat → Option SlotInfo :=
  fun i => if i = k then some v else m i

/-- The loop `for s in range(MAX_SLOTS): if slot_free_at[s] <= start: ...; break`,
walking the free list from index `k` upward and returning the first index
whose entry is `≤ a`. -/
def findFrom : List Int → Int → Nat → Option Nat
  | [], _, _ => none
  | f :: rest, a, k => if f ≤ a then some k else findFrom rest a (k + 1)

/-- First slot (in increasing index order) free at time `a`, mirroring the
first-fit loops of `_allocate_slots`. -/
def findFreeSlot (free : List Int) (a : Int) : Option Nat :=
  findFrom free a 0

/-- One first-fit loop of `_allocate_slots`: find the first slot free at `a`
and, on success, mark it busy until `b` (`slot_free_at[s] = b`). -/
def place (free : List Int) (a b : Int) : Option Nat × List Int :=
  match findFreeSlot free a with
  | some s => (some s, free.set s b)
  | none => (none, free)

/-- `duration_in = min(duration_slices // 2, FADE_WEEKS_FINISH_ONLY * SLICES_PER_WEEK)`
as computed in `_allocate_slots` and `_generate_bars`. -/
def durationIn (ds : Int) : Int :=
  min (Int.fdiv ds 2) (FADE_WEEKS_FINISH_ONLY * SLICES_PER_WEEK)

/-- `duration_out = min(duration_slices - duration_in, FADE_WEEKS_IN_PROGRESS * SLICES_PER_WEEK)`
as computed in `_allocate_slots` and `_generate_bars`. -/
def durationOut (ds : Int) : Int :=
  min (ds - durationIn ds) (FADE_WEEKS_IN_PROGRESS * SLICES_PER_WEEK)

/-- The body of the `for span in spans` loop of `_allocate_slots`
(`timeline_data.py` lines 160-267), acting on one span. In the split branch
both first-fit loops run unconditionally (the fade-in search sees the
`slot_free_at` update of a successful fade-out search), and the
`slot_free_at` updates are kept even when the allocation itself is not
recorded. -/
def allocStep (st : AllocState) (span : Span) : AllocState :=
  match span.start_week, span.end_week with
  | none, none => st
  | some start_week, some end_week =>
      let start_slice := start_week * SLICES_PER_WEEK
      let duration_weeks := end_week - start_week + 1
      let duration_slices := duration_weeks * SLICES_PER_WEEK
      let duration_in := durationIn duration_slices
      let duration_out := durationOut duration_slices
      if duration_out + duration_in < duration_slices then
        -- Long span with gap - can reuse slot for fade-in
        let fade_out_end := start_slice + duration_out
        let fade_in_start := (end_week + 1) * SLICES_PER_WEEK - duration_in
        let r1 := place st.slot_free_at start_slice fade_out_end
        let r2 := place r1.2 fade_in_start (fade_in_start + duration_in)
        match r1.1, r2.1 with
        | some s1, some s2 =>
            ⟨dictInsert st.alloc span.entry_idx (SlotInfo.split s1 s2), r2.2⟩
        | _, _ => ⟨st.alloc, r2.2⟩
      else
        -- Short span - needs single slot for entire duration
        let end_slice := start_slice + duration_slices
        let r := place st.slot_free_at start_slice end_slice
        match r.1 with
        | some s => ⟨dictInsert st.alloc span.entry_idx (SlotInfo.single s), r.2⟩
        | none => ⟨st.alloc, r.2⟩
  | some start_week, none =>
      -- In-progress span
      let start_slice := start_week * SLICES_PER_WEEK
      let end_slice := start_slice + FADE_WEEKS_IN_PROGRESS * SLICES_PER_WEEK
      let r := place st.slot_free_at start_slice end_slice
      match r.1 with
      | some s => ⟨dictInsert st.alloc span.entry_idx (SlotInfo.single s), r.2⟩
      | none => ⟨st.alloc, r.2⟩
  | none, some end_week =>
      -- Finish-only span
      let end_slice := (end_week + 1) * SLICES_PER_WEEK
      let start_slice := end_slice - FADE_WEEKS_FINISH_ONLY * SLICES_PER_WEEK
      let r := place st.slot_free_at start_slice end_slice
      match r.1 with
      | some s => ⟨dictInsert st.alloc span.entry_idx (SlotInfo.single s), r.2⟩
      | none => ⟨st.alloc, r.2⟩

/-- Initial state of `_allocate_slots`: empty dict, `slot_free_at = [0] * MAX_SLOTS`. -/
def initAllocState : AllocState :=
  ⟨fun _ => none, List.replicate MAX_SLOTS 0⟩

/-- `_allocate_slots(spans)`: fold the per-span step over the list and return
the `slot_allocations` dict. -/
def allocateSlots (spans : List Span) : Nat → Option SlotInfo :=
  (List.foldl allocStep initAllocState spans).alloc

/-! ## Fade profile generator (`_fade_out_span`, `_fade_in_span`) -/

/-- `numpy.linspace(a, b, n)` as used in `_fade_out_span` / `_fade_in_span`:
`n` evenly spaced samples from `a` to `b` inclusive. -/
def linspace (a b : ℚ) (n : Nat) : List ℚ :=
  (List.range n).map (fun (i : ℕ) => a + (b - a) * (i : ℚ) / ((n : ℚ) - 1))

/-- Python `round(x, 2)`. On the values occurring here, `x * 100` is an exact
integer, so no rounding-mode subtlety (half-even vs half-up) arises. -/
def round2 (q : ℚ) : ℚ :=
  (round (q * 100) : ℚ) / 100

/-- The opacity sequence of `_fade_out_span` for `duration_slices = d`:
`np.linspace(MAX_OPACITY, MIN_OPACITY, 16)[:d]`, each value rounded to two
decimals as in the bar-emitting loop. -/
def fadeOutOpacities (d : Nat) : List ℚ :=
  (((linspace MAX_OPACITY MIN_OPACITY
      (FADE_WEEKS_IN_PROGRESS * SLICES_PER_WEEK).toNat).take d).map round2)

/-- The opacity sequence of `_fade_in_span` for `duration_slices = d`:
`np.linspace(MIN_OPACITY, MAX_OPACITY, 16)[-d:]`, rounded to two decimals.
Python's `[-d:]` with `d = 0` is the whole list, and with `d ≥ 16` it is also
the whole list; both agree with this definition (`16 - d` truncates at 0). -/
def fadeInOpacities (d : Nat) : List ℚ :=
  ((if d = 0 then linspace MIN_OPACITY MAX_OPACITY
        (FADE_WEEKS_FINISH_ONLY * SLICES_PER_WEEK).toNat
    else (linspace MIN_OPACITY MAX_OPACITY
        (FADE_WEEKS_FINISH_ONLY * SLICES_PER_WEEK).toNat).drop
        ((FADE_WEEKS_FINISH_ONLY * SLICES_PER_WEEK).toNat - d)).map round2)

/-- A bar row as appended by `_add_span_bar` (template metadata other than
the slot is opaque to the layout engine and omitted). -/
structure Bar where
  bar_base : Int
  bar_y : Int
  opacity : ℚ
  slot : Nat
deriving Repr, DecidableEq

/-- `_fade_out_span(span_bars, tmpl, start_week, d)`: one bar per sample of
the truncated fade-out ramp, at consecutive bases from `start_week * SLICES_PER_WEEK`. -/
def fadeOutSpanBars (slot : Nat) (start_week : Int) (d : Nat) : List Bar :=
  (fadeOutOpacities d).enum.map fun p =>
    ⟨start_week * SLICES_PER_WEEK + p.1, 1, p.2, slot⟩

/-- `_fade_in_span(span_bars, tmpl, end_week, d)`: one bar per sample of the
truncated fade-in ramp, ending at `(end_week + 1) * SLICES_PER_WEEK - 1`. -/
def fadeInSpanBars (slot : Nat) (end_week : Int) (d : Nat) : List Bar :=
  (fadeInOpacities d).enum.map fun p =>
    ⟨(end_week + 1) * SLICES_PER_WEEK - d + p.1, 1, p.2, slot⟩

/-! ## Bar assembler (`_generate_bars`) -/

/-- The per-span body of `_generate_bars` (`timeline_data.py` lines 298-367):
the bars emitted for one span given its entry in `slot_allocations`.
For a one-sided span the Python code stores `slot_info` directly in the bar
template; the allocator only ever maps such spans to a plain slot, so the
(unreachable) pairing of a one-sided span with a split assignment is mapped
to `[]`. -/
def generateSpanBars (sp : Span) (slot_info : SlotInfo) : List Bar :=
  match sp.start_week, sp.end_week with
  | none, none => []
  | some start_week, some end_week =>
      let duration_weeks := end_week - start_week + 1
      let duration_slices := duration_weeks * SLICES_PER_WEEK
      let duration_in := durationIn duration_slices
      let duration_out := durationOut duration_slices
      match slot_info with
      | SlotInfo.split s1 s2 =>
          (if duration_out > 0 then fadeOutSpanBars s1 start_week duration_out.toNat
           else []) ++
          (if duration_in > 0 then fadeInSpanBars s2 end_week duration_in.toNat
           else [])
      | SlotInfo.single s =>
          (if duration_out > 0 then fadeOutSpanBars s start_week duration_out.toNat
           else []) ++
          (if duration_in > 0 then fadeInSpanBars s end_week duration_in.toNat
           else [])
  | some start_week, none =>
      match slot_info with
      | SlotInfo.single s =>
          fadeOutSpanBars s start_week
            (FADE_WEEKS_IN_PROGRESS * SLICES_PER_WEEK).toNat
      | SlotInfo.split _ _ => []
  | none, some end_week =>
      match slot_info with
      | SlotInfo.single s =>
          fadeInSpanBars s end_week
            (FADE_WEEKS_FINISH_ONLY * SLICES_PER_WEEK).toNat
      | SlotInfo.split _ _ => []

/-! ## Sorting (`_generate_bars` lines 281-292) -/

/-- First component of the Python sort key:
`x.get("start_week") if x.get("start_week") is not None else x.get("end_week", float("inf"))`,
with `⊤ : WithTop ℤ` playing `float("inf")`. -/
def key1 (sp : Span) : WithTop Int :=
  match sp.start_week with
  | some v => (v : WithTop Int)
  | none =>
      match sp.end_week with
      | some w => (w : WithTop Int)
      | none => ⊤

/-- Second component of the Python sort key:
`x.get("end_week") if x.get("end_week") is not None else float("inf")`. -/
def key2 (sp : Span) : WithTop Int :=
  match sp.end_week with
  | some w => (w : WithTop Int)
  | none => ⊤

/-- Strict lexicographic comparison of the Python sort keys (tuple `<`). -/
def keyLt (a b : Span) : Prop :=
  key1 a < key1 b ∨ (key1 a = key1 b ∧ key2 a < key2 b)

instance : DecidableRel keyLt := fun a b => by
  unfold keyLt; infer_instance

/-- Non-strict key comparison; `keyLe a b ↔ ¬ keyLt b a` since the key order
is linear. -/
def keyLe (a b : Span) : Prop := ¬ keyLt b a

instance : DecidableRel keyLe := fun a b => by
  unfold keyLe; infer_instance

/-- Stable insertion of a span into an already-sorted list: the new element
goes after every existing element whose key is `≤` its own, exactly the
placement Python's stable `sorted` gives equal keys. -/
def insertSpan (sp : Span) : List Span → List Span
  | [] => [sp]
  | x :: xs => if keyLt sp x then sp :: x :: xs else x :: insertSpan sp xs

/-- `sorted(spans, key=...)` of `_generate_bars`, modelled as a stable
insertion sort with the identical key; a stable sort's output is uniquely
determined by the key, so this coincides with Python's Timsort. -/
def sortSpans (l : List Span) : List Span :=
  l.foldl (fun acc sp => insertSpan sp acc) []

/-- `_generate_bars(spans)` as the flat list of bar rows: sort, allocate,
then emit bars for each allocated span in input order (spans with no week
data or no allocation are skipped). -/
def generateBars (spans : List Span) : List Bar :=
  let alloc := allocateSlots (sortSpans spans)
  spans.flatMap fun sp =>
    match alloc sp.entry_idx with
    | none => []
    | some info => generateSpanBars sp info

/-! ## Week index (`utils.py`) -/

/-- Python's `datetime.weekday()` for a day modelled as its proleptic
Gregorian ordinal (`date.toordinal`): ordinal 1 is a Monday (= 0), so
`weekday d = (d + 6) % 7`, Sunday = 6. -/
def weekday (d : Int) : Int := (d + 6) % 7

/-- `compute_week_index(entry_date, min_date)` from `src/app/utils.py`:
if `entry_date` is a Sunday it is first shifted one day forward, then the
index is `(entry_date - min_date).days // 7`. Dates are day ordinals. -/
def compute_week_index (entry_date min_date : Int) : Int :=
  let d := if weekday entry_date = 6 then entry_date + 1 else entry_date
  Int.fdiv (d - min_date) 7

/-- The value of the Python sort key tuple inside the linear order
`Lex (WithTop ℤ × WithTop ℤ)` (tuple comparison is lexicographic). -/
def keyOf (sp : Span) : Lex (WithTop Int × WithTop Int) :=
  toLex (key1 sp, key2 sp)

/-- Stated from the spec's words (sort step and end-only normalization), for
comparison with the key the code actually sorts by: a span's earliest
occupied slice, which for a finish-only span is the inferred
`occupyStart = endUnit + 1 - FADE_LENGTH_IN`, not its end unit. -/
def specEarliestOccupied (sp : Span) : WithTop Int :=
  match sp.start_week, sp.end_week with
  | some sw, _ => ((sw * SLICES_PER_WEEK : Int) : WithTop Int)
  | none, some ew =>
      (((ew + 1) * SLICES_PER_WEEK -
        FADE_WEEKS_FINISH_ONLY * SLICES_PER_WEEK : Int) : WithTop Int)
  | none, none => ⊤

/-- The closed week ranges of two two-sided spans intersect (the pairwise
"fully-overlapping" hypothesis of the capacity scenario). -/
def spansOverlapB (a b : Span) : Bool :=
  match a.start_week, a.end_week, b.start_week, b.end_week with
  | some sa, some ea, some sb, some eb => decide (max sa sb ≤ min ea eb)
  | _, _, _, _ => false

/-- A span (or split-span half) is well formed when a known start does not
lie after a known end; upstream extraction guarantees this for real inputs. -/
def SpanWF (sp : Span) : Bool :=
  match sp.start_week, sp.end_week with
  | some sw, some ew => decide (sw ≤ ew)
  | _, _ => true

/-- One occupied slice range `[lo, hi)` on a slot, as reserved by
`_allocate_slots` for a span (two of them for a split span). -/
structure OccRange where
  lo : Int
  hi : Int
  slot : Nat
deriving Repr, DecidableEq

/-- The occupied slice ranges a span covers under a given slot assignment,
matching exactly the `slot_free_at` reservations `_allocate_slots` makes:
a single range for a short / in-progress / finish-only span, and the
fade-out plus fade-in sub-ranges for a split span. -/
def spanRanges (sp : Span) (info : SlotInfo) : List OccRange :=
  match sp.start_week, sp.end_week, info with
  | some sw, some ew, SlotInfo.single s =>
      [⟨sw * SLICES_PER_WEEK,
        sw * SLICES_PER_WEEK + (ew - sw + 1) * SLICES_PER_WEEK, s⟩]
  | some sw, some ew, SlotInfo.split s1 s2 =>
      [⟨sw * SLICES_PER_WEEK,
        sw * SLICES_PER_WEEK + durationOut ((ew - sw + 1) * SLICES_PER_WEEK), s1⟩,
       ⟨(ew + 1) * SLICES_PER_WEEK - durationIn ((ew - sw + 1) * SLICES_PER_WEEK),
        (ew + 1) * SLICES_PER_WEEK, s2⟩]
  | some sw, none, SlotInfo.single s =>
      [⟨sw * SLICES_PER_WEEK,
        sw * SLICES_PER_WEEK + FADE_WEEKS_IN_PROGRESS * SLICES_PER_WEEK, s⟩]
  | none, some ew, SlotInfo.single s =>
      [⟨(ew + 1) * SLICES_PER_WEEK - FADE_WEEKS_FINISH_ONLY * SLICES_PER_WEEK,
        (ew + 1) * SLICES_PER_WEEK, s⟩]
  | _, _, _ => []

/-- Two half-open ranges do not intersect. -/
def rangesDisjoint (r r' : OccRange) : Prop :=
  r.hi ≤ r'.lo ∨ r'.hi ≤ r.lo

instance (r r' : OccRange) : Decidable (rangesDisjoint r r') := by
  unfold rangesDisjoint
  infer_instance

/-- Invariant of the allocation fold: after processing `spans`, the free
list still has `MAX_SLOTS` entries, only processed spans own dict entries,
every recorded range ends no later than its slot's free time, and ranges of
distinct spans on a common slot are disjoint. -/
def Inv (spans : List Span) (st : AllocState) : Prop :=
  st.slot_free_at.length = MAX_SLOTS ∧
  (∀ i, (st.alloc i).isSome = true → i ∈ spans.map Span.entry_idx) ∧
  (∀ q ∈ spans, ∀ info, st.alloc q.entry_idx = some info →
    ∀ r ∈ spanRanges q info,
      r.slot < st.slot_free_at.length ∧ r.lo ≤ r.hi ∧
      r.hi ≤ st.slot_free_at.getD r.slot 0) ∧
  (∀ q ∈ spans, ∀ q' ∈ spans, q.entry_idx ≠ q'.entry_idx →
    ∀ info info', st.alloc q.entry_idx = some info →
      st.alloc q'.entry_idx = some info' →
      ∀ r ∈ spanRanges q info, ∀ r' ∈ spanRanges q' info',
        r.slot = r'.slot → rangesDisjoint r r')

/-! ## Lemmas about the fade profiles -/

lemma fade_len_out : (FADE_WEEKS_IN_PROGRESS * SLICES_PER_WEEK).toNat = 16 := rfl

lemma fade_len_in : (FADE_WEEKS_FINISH_ONLY * SLICES_PER_WEEK).toNat = 16 := rfl

lemma linspace_length (a b : ℚ) (n : Nat) : (linspace a b n).length = n := by
  unfold linspace
  rw [List.length_map, List.length_range]

lemma linspace_getElem? (a b : ℚ) (n i : Nat) (h : i < n) :
    (linspace a b n)[i]? = some (a + (b - a) * i / (n - 1)) := by
  unfold linspace
  rw [List.getElem?_map, List.getElem?_range h, Option.map_some']

lemma round2_int (z : ℤ) (q : ℚ) (h : q * 100 = (z : ℚ)) :
    round2 q = (z : ℚ) / 100 := by
  unfold round2
  rw [h, round_intCast]

lemma fadeOutOpacities_take (d : Nat) :
    fadeOutOpacities d = (fadeOutOpacities 16).take d := by
  unfold fadeOutOpacities
  rw [fade_len_out,
    List.take_of_length_le (le_of_eq (linspace_length MAX_OPACITY MIN_OPACITY 16)),
    List.map_take]

lemma fadeInOpacities_drop (d : Nat) (hd : 0 < d) :
    fadeInOpacities d = (fadeInOpacities 16).drop (16 - d) := by
  unfold fadeInOpacities
  rw [fade_len_in, if_neg (Nat.pos_iff_ne_zero.mp hd), if_neg (by norm_num),
    Nat.sub_self, List.drop_zero, List.map_drop]

lemma fadeInOpacities_zero : fadeInOpacities 0 = fadeInOpacities 16 := by
  unfold fadeInOpacities
  rw [fade_len_in]
  norm_num

lemma fadeOutOpacities_length (d : Nat) :
    (fadeOutOpacities d).length = min d 16 := by
  rw [fadeOutOpacities_take, List.length_take]
  unfold fadeOutOpacities
  rw [fade_len_out, List.length_map, List.length_take,
    linspace_length MAX_OPACITY MIN_OPACITY 16]
  omega

lemma fadeInOpacities_length (d : Nat) (h0 : 0 < d) (h16 : d ≤ 16) :
    (fadeInOpacities d).length = d := by
  rw [fadeInOpacities_drop d h0, List.length_drop]
  unfold fadeInOpacities
  rw [fade_len_in, if_neg (by norm_num), Nat.sub_self, List.drop_zero,
    List.length_map, linspace_length MIN_OPACITY MAX_OPACITY 16]
  omega

lemma fadeOutOpacities_sixteen_getElem? (i : Nat) (h : i < 16) :
    (fadeOutOpacities 16)[i]? = some ((90 - 6 * (i : ℚ)) / 100) := by
  unfold fadeOutOpacities
  rw [fade_len_out,
    List.take_of_length_le (le_of_eq (linspace_length MAX_OPACITY MIN_OPACITY 16)),
    List.getElem?_map, linspace_getElem? MAX_OPACITY MIN_OPACITY 16 i h]
  rw [Option.map_some']
  congr 1
  have h100 : (MAX_OPACITY + (MIN_OPACITY - MAX_OPACITY) * (i : ℚ) / (((16 : ℕ) : ℚ) - 1))
      * 100 = ((90 - 6 * (i : ℤ) : ℤ) : ℚ) := by
    unfold MAX_OPACITY MIN_OPACITY
    push_cast
    ring
  rw [round2_int _ _ h100]
  push_cast
  ring

lemma fadeInOpacities_sixteen_getElem? (i : Nat) (h : i < 16) :
    (fadeInOpacities 16)[i]? = some ((6 * (i : ℚ)) / 100) := by
  unfold fadeInOpacities
  rw [fade_len_in, if_neg (by norm_num), Nat.sub_self, List.drop_zero,
    List.getElem?_map, linspace_getElem? MIN_OPACITY MAX_OPACITY 16 i h]
  rw [Option.map_some']
  congr 1
  have h100 : (MIN_OPACITY + (MAX_OPACITY - MIN_OPACITY) * (i : ℚ) / (((16 : ℕ) : ℚ) - 1))
      * 100 = ((6 * (i : ℤ) : ℤ) : ℚ) := by
    unfold MAX_OPACITY MIN_OPACITY
    push_cast
    ring
  rw [round2_int _ _ h100]
  push_cast
  ring

lemma fadeOutOpacities_sixteen_getD (i : Nat) (h : i < 16) :
    (fadeOutOpacities 16).getD i 0 = (90 - 6 * (i : ℚ)) / 100 := by
  rw [List.getD_eq_getElem?_getD, fadeOutOpacities_sixteen_getElem? i h, Option.getD_some]

lemma fadeInOpacities_sixteen_getD (i : Nat) (h : i < 16) :
    (fadeInOpacities 16).getD i 0 = (6 * (i : ℚ)) / 100 := by
  rw [List.getD_eq_getElem?_getD, fadeInOpacities_sixteen_getElem? i h, Option.getD_some]

lemma fadeOutOpacities_sixteen_pairwise :
    (fadeOutOpacities 16).Pairwise (· ≥ ·) := by
  have hlen : (fadeOutOpacities 16).length = 16 := by
    rw [fadeOutOpacities_length]
    rfl
  rw [List.pairwise_iff_getElem]
  intro i j hi hj hij
  rw [hlen] at hi hj
  have h1 := fadeOutOpacities_sixteen_getElem? i hi
  have h2 := fadeOutOpacities_sixteen_getElem? j hj
  rw [List.getElem?_eq_getElem (by rw [hlen]; exact hi)] at h1
  rw [List.getElem?_eq_getElem (by rw [hlen]; exact hj)] at h2
  rw [Option.some_inj] at h1 h2
  rw [h1, h2]
  have : (i : ℚ) ≤ (j : ℚ) := by exact_mod_cast le_of_lt hij
  simp only [ge_iff_le, div_le_div_iff_of_pos_right (by norm_num : (0:ℚ) < 100)]
  linarith

lemma fadeInOpacities_sixteen_pairwise :
    (fadeInOpacities 16).Pairwise (· ≤ ·) := by
  have hlen : (fadeInOpacities 16).length = 16 := by
    rw [fadeInOpacities_length 16 (by norm_num) (by norm_num)]
  rw [List.pairwise_iff_getElem]
  intro i j hi hj hij
  rw [hlen] at hi hj
  have h1 := fadeInOpacities_sixteen_getElem? i hi
  have h2 := fadeInOpacities_sixteen_getElem? j hj
  rw [List.getElem?_eq_getElem (by rw [hlen]; exact hi)] at h1
  rw [List.getElem?_eq_getElem (by rw [hlen]; exact hj)] at h2
  rw [Option.some_inj] at h1 h2
  rw [h1, h2]
  have : (i : ℚ) ≤ (j : ℚ) := by exact_mod_cast le_of_lt hij
  simp only [div_le_div_iff_of_pos_right (by norm_num : (0:ℚ) < 100)]
  linarith

lemma fadeOutOpacities_sixteen_bounds :
    ∀ x ∈ fadeOutOpacities 16, MIN_OPACITY ≤ x ∧ x ≤ MAX_OPACITY := by
  intro x hx
  have hlen : (fadeOutOpacities 16).length = 16 := by
    rw [fadeOutOpacities_length]
    rfl
  rw [List.mem_iff_getElem] at hx
  obtain ⟨i, hi, hx⟩ := hx
  have h1 := fadeOutOpacities_sixteen_getElem? i (by rw [hlen] at hi; exact hi)
  rw [List.getElem?_eq_getElem hi, Option.some_inj, hx] at h1
  have h0 : (0 : ℚ) ≤ (i : ℚ) := by positivity
  have h15 : (i : ℚ) ≤ 15 := by
    rw [hlen] at hi
    exact_mod_cast Nat.le_of_lt_succ hi
  rw [h1]
  unfold MIN_OPACITY MAX_OPACITY
  constructor
  · apply div_nonneg _ (by norm_num)
    linarith
  · rw [div_le_iff₀ (by norm_num : (0:ℚ) < 100)]
    linarith

lemma fadeInOpacities_sixteen_bounds :
    ∀ x ∈ fadeInOpacities 16, MIN_OPACITY ≤ x ∧ x ≤ MAX_OPACITY := by
  intro x hx
  have hlen : (fadeInOpacities 16).length = 16 := by
    rw [fadeInOpacities_length 16 (by norm_num) (by norm_num)]
  rw [List.mem_iff_getElem] at hx
  obtain ⟨i, hi, hx⟩ := hx
  have h1 := fadeInOpacities_sixteen_getElem? i (by rw [hlen] at hi; exact hi)
  rw [List.getElem?_eq_getElem hi, Option.some_inj, hx] at h1
  have h0 : (0 : ℚ) ≤ (i : ℚ) := by positivity
  have h15 : (i : ℚ) ≤ 15 := by
    rw [hlen] at hi
    exact_mod_cast Nat.le_of_lt_succ hi
  rw [h1]
  unfold MIN_OPACITY MAX_OPACITY
  constructor
  · apply div_nonneg _ (by norm_num)
    linarith
  · rw [div_le_iff₀ (by norm_num : (0:ℚ) < 100)]
    linarith

lemma fadeOutOpacities_trunc_getD (d i : Nat) (hi : i < d) :
    (fadeOutOpacities d).getD i 0 = (fadeOutOpacities 16).getD i 0 := by
  rw [fadeOutOpacities_take, List.getD_eq_getElem?_getD, List.getD_eq_getElem?_getD,
    List.getElem?_take, if_pos hi]

lemma fadeInOpacities_trunc_getD (d i : Nat) (hi : i < d) :
    (fadeInOpacities d).getD i 0 = (fadeInOpacities 16).getD (16 - d + i) 0 := by
  rw [fadeInOpacities_drop d (Nat.lt_of_le_of_lt (Nat.zero_le i) hi),
    List.getD_eq_getElem?_getD, List.getD_eq_getElem?_getD, List.getElem?_drop]

/-- C5 (monotone ramps with bounded opacities). -/
theorem fade_profiles_monotone_bounded (d : Nat) :
    ((fadeOutOpacities d).Pairwise (· ≥ ·) ∧
      ∀ x ∈ fadeOutOpacities d, MIN_OPACITY ≤ x ∧ x ≤ MAX_OPACITY) ∧
    ((fadeInOpacities d).Pairwise (· ≤ ·) ∧
      ∀ x ∈ fadeInOpacities d, MIN_OPACITY ≤ x ∧ x ≤ MAX_OPACITY) := by
  refine ⟨⟨?_, ?_⟩, ?_, ?_⟩
  · rw [fadeOutOpacities_take]
    exact fadeOutOpacities_sixteen_pairwise.sublist (List.take_sublist _ _)
  · rw [fadeOutOpacities_take]
    intro x hx
    exact fadeOutOpacities_sixteen_bounds x (List.take_subset _ _ hx)
  · rcases Nat.eq_zero_or_pos d with h | h
    · rw [h, fadeInOpacities_zero]
      exact fadeInOpacities_sixteen_pairwise
    · rw [fadeInOpacities_drop d h]
      exact fadeInOpacities_sixteen_pairwise.sublist (List.drop_sublist _ _)
  · rcases Nat.eq_zero_or_pos d with h | h
    · rw [h, fadeInOpacities_zero]
      exact fadeInOpacities_sixteen_bounds
    · rw [fadeInOpacities_drop d h]
      intro x hx
      exact fadeInOpacities_sixteen_bounds x (List.drop_subset _ _ hx)

/-- C6: the full fade-out ramp is linear (`linspace`-spaced, slope `-0.06` per
slice) from `MAX_OPACITY` at offset `0` down to `MIN_OPACITY` at offset `15`;
truncation to `d < 16` keeps exactly the first `d` samples.  Mirror-wise the
full fade-in ramp is linear from `MIN_OPACITY` up to `MAX_OPACITY` and
truncation keeps exactly the last `d` samples. -/
theorem fade_ramps_linear_truncation :
    ((fadeOutOpacities 16).getD 0 0 = MAX_OPACITY ∧
      (fadeOutOpacities 16).getD 15 0 = MIN_OPACITY ∧
      ∀ i : Nat, i < 16 →
        (fadeOutOpacities 16).getD i 0 = MAX_OPACITY - 3 / 50 * i) ∧
    (∀ d : Nat, d ≤ 16 → (fadeOutOpacities d).length = d ∧
      ∀ i : Nat, i < d →
        (fadeOutOpacities d).getD i 0 = (fadeOutOpacities 16).getD i 0) ∧
    ((fadeInOpacities 16).getD 0 0 = MIN_OPACITY ∧
      (fadeInOpacities 16).getD 15 0 = MAX_OPACITY ∧
      ∀ i : Nat, i < 16 →
        (fadeInOpacities 16).getD i 0 = MIN_OPACITY + 3 / 50 * i) ∧
    (∀ d : Nat, 0 < d → d ≤ 16 → (fadeInOpacities d).length = d ∧
      ∀ i : Nat, i < d →
        (fadeInOpacities d).getD i 0 = (fadeInOpacities 16).getD (16 - d + i) 0) := by
  refine ⟨⟨?_, ?_, ?_⟩, ?_, ⟨?_, ?_, ?_⟩, ?_⟩
  · rw [fadeOutOpacities_sixteen_getD 0 (by norm_num)]
    unfold MAX_OPACITY
    norm_num
  · rw [fadeOutOpacities_sixteen_getD 15 (by norm_num)]
    unfold MIN_OPACITY
    norm_num
  · intro i hi
    rw [fadeOutOpacities_sixteen_getD i hi]
    unfold MAX_OPACITY
    ring
  · intro d hd
    refine ⟨?_, fun i hi => fadeOutOpacities_trunc_getD d i hi⟩
    rw [fadeOutOpacities_length]
    omega
  · rw [fadeInOpacities_sixteen_getD 0 (by norm_num)]
    unfold MIN_OPACITY
    norm_num
  · rw [fadeInOpacities_sixteen_getD 15 (by norm_num)]
    unfold MAX_OPACITY
    norm_num
  · intro i hi
    rw [fadeInOpacities_sixteen_getD i hi]
    unfold MIN_OPACITY
    ring
  · intro d hd0 hd
    exact ⟨fadeInOpacities_length d hd0 hd, fun i hi => fadeInOpacities_trunc_getD d i hi⟩

/-- Witness for C6: concrete instances of the truncation and linearity facts. -/
theorem fade_ramps_linear_truncation_witness :
    ((fadeOutOpacities 3).length = 3 ∧
      (fadeOutOpacities 3).getD 2 0 = (fadeOutOpacities 16).getD 2 0) ∧
    ((fadeOutOpacities 16).getD 2 0 = MAX_OPACITY - 3 / 50 * (2 : Nat)) ∧
    ((fadeInOpacities 5).length = 5 ∧
      (fadeInOpacities 5).getD 0 0 = (fadeInOpacities 16).getD 11 0) := by
  have h := fade_ramps_linear_truncation
  refine ⟨⟨(h.2.1 3 (by norm_num)).1, (h.2.1 3 (by norm_num)).2 2 (by norm_num)⟩,
    h.1.2.2 2 (by norm_num), (h.2.2.2 5 (by norm_num) (by norm_num)).1, ?_⟩
  have := (h.2.2.2 5 (by norm_num) (by norm_num)).2 0 (by norm_num)
  simpa using this

/-! ## Lemmas about the bar assembler -/

lemma fadeOutSpanBars_length (s : Nat) (w : Int) (d : Nat) :
    (fadeOutSpanBars s w d).length = min d 16 := by
  unfold fadeOutSpanBars
  rw [List.length_map, List.enum_length, fadeOutOpacities_length]

lemma fadeInSpanBars_length (s : Nat) (w : Int) (d : Nat) (h0 : 0 < d) (h16 : d ≤ 16) :
    (fadeInSpanBars s w d).length = d := by
  unfold fadeInSpanBars
  rw [List.length_map, List.enum_length, fadeInOpacities_length d h0 h16]

lemma fadeOutSpanBars_getElem? (s : Nat) (w : Int) (d i : Nat)
    (h : i < (fadeOutOpacities d).length) :
    (fadeOutSpanBars s w d)[i]? =
      some ⟨w * SLICES_PER_WEEK + i, 1, (fadeOutOpacities d).getD i 0, s⟩ := by
  unfold fadeOutSpanBars
  rw [List.getElem?_map, List.getElem?_enum, List.getElem?_eq_getElem h,
    Option.map_some', Option.map_some', List.getD_eq_getElem]

lemma fadeInSpanBars_getElem? (s : Nat) (w : Int) (d i : Nat)
    (h : i < (fadeInOpacities d).length) :
    (fadeInSpanBars s w d)[i]? =
      some ⟨(w + 1) * SLICES_PER_WEEK - d + i, 1, (fadeInOpacities d).getD i 0, s⟩ := by
  unfold fadeInSpanBars
  rw [List.getElem?_map, List.getElem?_enum, List.getElem?_eq_getElem h,
    Option.map_some', Option.map_some', List.getD_eq_getElem]

/-- The two-sided branch of `_generate_bars` (both weeks known) emits the same
bar lists for a plain slot and for a split assignment, up to the slot tags. -/
lemma generateSpanBars_two_sided (sw ew : Int) (idx : Nat) (s1 s2 : Nat) :
    (generateSpanBars ⟨some sw, some ew, idx⟩ (SlotInfo.split s1 s2) =
      (if durationOut ((ew - sw + 1) * SLICES_PER_WEEK) > 0 then
        fadeOutSpanBars s1 sw (durationOut ((ew - sw + 1) * SLICES_PER_WEEK)).toNat
       else []) ++
      (if durationIn ((ew - sw + 1) * SLICES_PER_WEEK) > 0 then
        fadeInSpanBars s2 ew (durationIn ((ew - sw + 1) * SLICES_PER_WEEK)).toNat
       else [])) ∧
    (generateSpanBars ⟨some sw, some ew, idx⟩ (SlotInfo.single s1) =
      (if durationOut ((ew - sw + 1) * SLICES_PER_WEEK) > 0 then
        fadeOutSpanBars s1 sw (durationOut ((ew - sw + 1) * SLICES_PER_WEEK)).toNat
       else []) ++
      (if durationIn ((ew - sw + 1) * SLICES_PER_WEEK) > 0 then
        fadeInSpanBars s1 ew (durationIn ((ew - sw + 1) * SLICES_PER_WEEK)).toNat
       else [])) := by
  constructor <;> rfl

lemma duration_split_arith (sw ew : Int) :
    Int.fdiv ((ew - sw + 1) * SLICES_PER_WEEK) 2 = 2 * (ew - sw + 1) := by
  have h : (ew - sw + 1) * SLICES_PER_WEEK = 2 * (2 * (ew - sw + 1)) := by
    unfold SLICES_PER_WEEK
    ring
  rw [h, Int.mul_fdiv_cancel_left _ (by norm_num)]

lemma duration_in_short (sw ew : Int) (hle : sw ≤ ew)
    (hshort : (ew - sw + 1) * SLICES_PER_WEEK ≤
      FADE_WEEKS_IN_PROGRESS * SLICES_PER_WEEK +
        FADE_WEEKS_FINISH_ONLY * SLICES_PER_WEEK) :
    durationIn ((ew - sw + 1) * SLICES_PER_WEEK) = 2 * (ew - sw + 1) := by
  have hshort4 : (ew - sw + 1) * 4 ≤ 32 := by
    simpa [SLICES_PER_WEEK, FADE_WEEKS_IN_PROGRESS, FADE_WEEKS_FINISH_ONLY]
      using hshort
  unfold durationIn
  rw [duration_split_arith sw ew]
  have h16 : FADE_WEEKS_FINISH_ONLY * SLICES_PER_WEEK = 16 := rfl
  rw [h16]
  omega

lemma duration_out_short (sw ew : Int) (hle : sw ≤ ew)
    (hshort : (ew - sw + 1) * SLICES_PER_WEEK ≤
      FADE_WEEKS_IN_PROGRESS * SLICES_PER_WEEK +
        FADE_WEEKS_FINISH_ONLY * SLICES_PER_WEEK) :
    durationOut ((ew - sw + 1) * SLICES_PER_WEEK) = 2 * (ew - sw + 1) := by
  have hshort4 : (ew - sw + 1) * 4 ≤ 32 := by
    simpa [SLICES_PER_WEEK, FADE_WEEKS_IN_PROGRESS, FADE_WEEKS_FINISH_ONLY]
      using hshort
  have h4 : (ew - sw + 1) * SLICES_PER_WEEK = (ew - sw + 1) * 4 := rfl
  unfold durationOut
  rw [duration_in_short sw ew hle hshort, h4]
  have h16 : FADE_WEEKS_IN_PROGRESS * SLICES_PER_WEEK = 16 := rfl
  rw [h16]
  omega

/-- C4: a two-sided span shorter than the two full ramps combined produces
exactly `duration_slices` bars, with `duration_in = min(duration_slices // 2,
FADE_LENGTH_IN)`, `duration_out = duration_slices - duration_in`, and
`duration_in + duration_out = duration_slices`, whatever slot assignment the
span received. -/
theorem truncation_exact_bars (sw ew : Int) (idx : Nat) (info : SlotInfo)
    (hle : sw ≤ ew)
    (hshort : (ew - sw + 1) * SLICES_PER_WEEK <
      FADE_WEEKS_IN_PROGRESS * SLICES_PER_WEEK +
        FADE_WEEKS_FINISH_ONLY * SLICES_PER_WEEK) :
    durationIn ((ew - sw + 1) * SLICES_PER_WEEK) =
      min (Int.fdiv ((ew - sw + 1) * SLICES_PER_WEEK) 2)
        (FADE_WEEKS_FINISH_ONLY * SLICES_PER_WEEK) ∧
    durationOut ((ew - sw + 1) * SLICES_PER_WEEK) =
      (ew - sw + 1) * SLICES_PER_WEEK -
        durationIn ((ew - sw + 1) * SLICES_PER_WEEK) ∧
    durationIn ((ew - sw + 1) * SLICES_PER_WEEK) +
        durationOut ((ew - sw + 1) * SLICES_PER_WEEK) =
      (ew - sw + 1) * SLICES_PER_WEEK ∧
    (generateSpanBars ⟨some sw, some ew, idx⟩ info).length =
      ((ew - sw + 1) * SLICES_PER_WEEK).toNat := by
  have hIn := duration_in_short sw ew hle (le_of_lt hshort)
  have hOut := duration_out_short sw ew hle (le_of_lt hshort)
  have hnum : (ew - sw + 1) * SLICES_PER_WEEK = 4 * (ew - sw + 1) := by
    unfold SLICES_PER_WEEK
    ring
  refine ⟨rfl, ?_, ?_, ?_⟩
  · rw [hOut, hIn, hnum]
    ring
  · rw [hOut, hIn, hnum]
    ring
  · have hpos : 1 ≤ ew - sw + 1 := by omega
    have hOutPos : durationOut ((ew - sw + 1) * SLICES_PER_WEEK) > 0 := by
      rw [hOut]; omega
    have hInPos : durationIn ((ew - sw + 1) * SLICES_PER_WEEK) > 0 := by
      rw [hIn]; omega
    have hshort4 : (ew - sw + 1) * 4 < 32 := by
      simpa [SLICES_PER_WEEK, FADE_WEEKS_IN_PROGRESS, FADE_WEEKS_FINISH_ONLY]
        using hshort
    have hIn16 : durationIn ((ew - sw + 1) * SLICES_PER_WEEK) ≤ 16 := by
      rw [hIn]
      omega
    cases info with
    | split s1 s2 =>
        rw [(generateSpanBars_two_sided sw ew idx s1 s2).1, if_pos hOutPos,
          if_pos hInPos, List.length_append, fadeOutSpanBars_length,
          fadeInSpanBars_length s2 ew _ (by omega) (by omega)]
        rw [hOut, hIn, hnum]
        omega
    | single s =>
        rw [(generateSpanBars_two_sided sw ew idx s s).2, if_pos hOutPos,
          if_pos hInPos, List.length_append, fadeOutSpanBars_length,
          fadeInSpanBars_length s ew _ (by omega) (by omega)]
        rw [hOut, hIn, hnum]
        omega

/-- Witness for C4: a 4-week span (16 slices, shorter than the 32 combined
ramp slices) on a plain slot. -/
theorem truncation_exact_bars_witness :
    durationIn (((4 : Int) - 1 + 1) * SLICES_PER_WEEK) =
      min (Int.fdiv (((4 : Int) - 1 + 1) * SLICES_PER_WEEK) 2)
        (FADE_WEEKS_FINISH_ONLY * SLICES_PER_WEEK) ∧
    durationOut (((4 : Int) - 1 + 1) * SLICES_PER_WEEK) =
      ((4 : Int) - 1 + 1) * SLICES_PER_WEEK -
        durationIn (((4 : Int) - 1 + 1) * SLICES_PER_WEEK) ∧
    durationIn (((4 : Int) - 1 + 1) * SLICES_PER_WEEK) +
        durationOut (((4 : Int) - 1 + 1) * SLICES_PER_WEEK) =
      ((4 : Int) - 1 + 1) * SLICES_PER_WEEK ∧
    (generateSpanBars ⟨some 1, some 4, 0⟩ (SlotInfo.single 0)).length =
      (((4 : Int) - 1 + 1) * SLICES_PER_WEEK).toNat :=
  truncation_exact_bars 1 4 0 (SlotInfo.single 0) (by norm_num)
    (by unfold FADE_WEEKS_IN_PROGRESS FADE_WEEKS_FINISH_ONLY SLICES_PER_WEEK; norm_num)

/-- C7: for a two-sided span of even slice duration at most the two full
ramps combined, the bar at the end of the fade-out ramp and the bar at the
start of the fade-in ramp carry the same opacity (no jump at the seam),
whatever slot assignment the span received. -/
theorem seam_opacities_match (sw ew : Int) (idx : Nat) (info : SlotInfo)
    (hle : sw ≤ ew)
    (heven : ((ew - sw + 1) * SLICES_PER_WEEK) % 2 = 0)
    (hshort : (ew - sw + 1) * SLICES_PER_WEEK ≤
      FADE_WEEKS_IN_PROGRESS * SLICES_PER_WEEK +
        FADE_WEEKS_FINISH_ONLY * SLICES_PER_WEEK) :
    ∃ b1 b2 : Bar,
      (generateSpanBars ⟨some sw, some ew, idx⟩ info)[
        (durationOut ((ew - sw + 1) * SLICES_PER_WEEK)).toNat - 1]? = some b1 ∧
      (generateSpanBars ⟨some sw, some ew, idx⟩ info)[
        (durationOut ((ew - sw + 1) * SLICES_PER_WEEK)).toNat]? = some b2 ∧
      b1.opacity = b2.opacity := by
  have hIn := duration_in_short sw ew hle hshort
  have hOut := duration_out_short sw ew hle hshort
  have hshort4 : (ew - sw + 1) * 4 ≤ 32 := by
    simpa [SLICES_PER_WEEK, FADE_WEEKS_IN_PROGRESS, FADE_WEEKS_FINISH_ONLY]
      using hshort
  have hOutPos : durationOut ((ew - sw + 1) * SLICES_PER_WEEK) > 0 := by
    rw [hOut]; omega
  have hInPos : durationIn ((ew - sw + 1) * SLICES_PER_WEEK) > 0 := by
    rw [hIn]; omega
  set n : Nat := (durationOut ((ew - sw + 1) * SLICES_PER_WEEK)).toNat with hn
  have hnIn : (durationIn ((ew - sw + 1) * SLICES_PER_WEEK)).toNat = n := by
    rw [hn, hIn, hOut]
  have hn1 : 1 ≤ n := by rw [hn, hOut]; omega
  have hn16 : n ≤ 16 := by rw [hn, hOut]; omega
  have houtLen : (fadeOutOpacities n).length = n := by
    rw [fadeOutOpacities_length]; omega
  have hinLen : (fadeInOpacities n).length = n :=
    fadeInOpacities_length n (by omega) hn16
  have hb1get := fadeOutSpanBars_getElem? 0 sw n (n - 1) (by rw [houtLen]; omega)
  have hb2get := fadeInSpanBars_getElem? 0 ew n 0 (by rw [hinLen]; omega)
  -- the two opacities agree
  have hop : (fadeOutOpacities n).getD (n - 1) 0 = (fadeInOpacities n).getD 0 0 := by
    rw [fadeOutOpacities_trunc_getD n (n - 1) (by omega),
      fadeInOpacities_trunc_getD n 0 (by omega),
      fadeOutOpacities_sixteen_getD (n - 1) (by omega),
      fadeInOpacities_sixteen_getD (16 - n + 0) (by omega)]
    have hc1 : ((n - 1 : ℕ) : ℚ) = (n : ℚ) - 1 := by
      push_cast [Nat.cast_sub hn1]
      ring
    have hc2 : ((16 - n + 0 : ℕ) : ℚ) = 16 - (n : ℚ) := by
      push_cast [Nat.cast_sub hn16]
      ring
    rw [hc1, hc2]
    ring
  -- assemble: both the split and the single branch emit out-bars ++ in-bars
  have hmain : ∀ s1 s2 : Nat,
      ∃ b1 b2 : Bar,
        (fadeOutSpanBars s1 sw n ++ fadeInSpanBars s2 ew n)[n - 1]? = some b1 ∧
        (fadeOutSpanBars s1 sw n ++ fadeInSpanBars s2 ew n)[n]? = some b2 ∧
        b1.opacity = b2.opacity := by
    intro s1 s2
    have hlen1 : (fadeOutSpanBars s1 sw n).length = n := by
      rw [fadeOutSpanBars_length]; omega
    have hg1 := fadeOutSpanBars_getElem? s1 sw n (n - 1) (by rw [houtLen]; omega)
    have hg2 := fadeInSpanBars_getElem? s2 ew n 0 (by rw [hinLen]; omega)
    refine ⟨⟨sw * SLICES_PER_WEEK + ((n - 1 : ℕ) : ℤ), 1,
        (fadeOutOpacities n).getD (n - 1) 0, s1⟩,
      ⟨(ew + 1) * SLICES_PER_WEEK - (n : ℤ) + ((0 : ℕ) : ℤ), 1,
        (fadeInOpacities n).getD 0 0, s2⟩, ?_, ?_, ?_⟩
    · rw [List.getElem?_append, if_pos (by omega), hg1]
    · rw [List.getElem?_append, if_neg (by omega), hlen1, Nat.sub_self, hg2]
    · exact hop
  cases info with
  | split s1 s2 =>
      rw [(generateSpanBars_two_sided sw ew idx s1 s2).1, if_pos hOutPos,
        if_pos hInPos, hnIn]
      exact hmain s1 s2
  | single s =>
      rw [(generateSpanBars_two_sided sw ew idx s s).2, if_pos hOutPos,
        if_pos hInPos, hnIn]
      exact hmain s s

/-- Witness for C7: the 4-week span of the short-span test, on a plain slot. -/
theorem seam_opacities_match_witness :
    ∃ b1 b2 : Bar,
      (generateSpanBars ⟨some 1, some 4, 0⟩ (SlotInfo.single 0))[
        (durationOut (((4 : Int) - 1 + 1) * SLICES_PER_WEEK)).toNat - 1]? = some b1 ∧
      (generateSpanBars ⟨some 1, some 4, 0⟩ (SlotInfo.single 0))[
        (durationOut (((4 : Int) - 1 + 1) * SLICES_PER_WEEK)).toNat]? = some b2 ∧
      b1.opacity = b2.opacity :=
  seam_opacities_match 1 4 0 (SlotInfo.single 0) (by norm_num) (by decide)
    (by unfold FADE_WEEKS_IN_PROGRESS FADE_WEEKS_FINISH_ONLY SLICES_PER_WEEK; norm_num)

/-- C9: for any date on or after `min_date` (dates as day ordinals), the
week index is `floor((date - min_date) / 7)`, except that a Sunday
(`weekday = 6`, the last day of a Monday-started week) is first shifted one
day forward; when `min_date` is Monday-aligned this puts the Sunday into the
next week bucket (index one higher than the unshifted formula). -/
theorem compute_week_index_spec (d dmin : Int) (hmin : dmin ≤ d) :
    (weekday d ≠ 6 → compute_week_index d dmin = Int.fdiv (d - dmin) 7) ∧
    (weekday d = 6 → compute_week_index d dmin = Int.fdiv (d + 1 - dmin) 7) ∧
    (weekday d = 6 → weekday dmin = 0 →
      compute_week_index d dmin = Int.fdiv (d - dmin) 7 + 1) := by
  simp only [compute_week_index, weekday]
  refine ⟨?_, ?_, ?_⟩
  · intro h
    rw [if_neg h]
  · intro h
    rw [if_pos h]
  · intro h h0
    rw [if_pos h]
    rw [Int.fdiv_eq_ediv _ (by norm_num), Int.fdiv_eq_ediv _ (by norm_num)]
    omega

/-- Witness for C9: 2023-01-08 (a Sunday, ordinal 738528) against the
Monday 2023-01-02 (ordinal 738522) lands in week 1, not week 0. -/
theorem compute_week_index_spec_witness :
    compute_week_index 738528 738522 = Int.fdiv ((738528 : ℤ) - 738522) 7 + 1 :=
  (compute_week_index_spec 738528 738522 (by norm_num)).2.2 (by decide) (by decide)

/-- C10: when a split span's fade-out first-fit search fails but its fade-in
search succeeds, the span is omitted from `slot_allocations` (the dict is
unchanged), yet the `slot_free_at` update of the successful fade-in placement
is retained, keeping that lane marked busy for subsequent spans of the run.
(The converse half-failure cannot occur: a successful fade-out search leaves
its own slot free at `fade_in_start`, so the fade-in search then always
succeeds.) -/
theorem split_half_failure_keeps_reservation (st : AllocState) (sp : Span)
    (sw ew : Int) (s2 : Nat)
    (h1 : sp.start_week = some sw) (h2 : sp.end_week = some ew)
    (hsplit : durationOut ((ew - sw + 1) * SLICES_PER_WEEK) +
        durationIn ((ew - sw + 1) * SLICES_PER_WEEK) <
      (ew - sw + 1) * SLICES_PER_WEEK)
    (hfail : findFreeSlot st.slot_free_at (sw * SLICES_PER_WEEK) = none)
    (hok : findFreeSlot st.slot_free_at
        ((ew + 1) * SLICES_PER_WEEK -
          durationIn ((ew - sw + 1) * SLICES_PER_WEEK)) = some s2) :
    (allocStep st sp).alloc = st.alloc ∧
    (allocStep st sp).slot_free_at = st.slot_free_at.set s2
      ((ew + 1) * SLICES_PER_WEEK -
          durationIn ((ew - sw + 1) * SLICES_PER_WEEK) +
        durationIn ((ew - sw + 1) * SLICES_PER_WEEK)) := by
  obtain ⟨s, e, idx⟩ := sp
  cases h1
  cases h2
  have hp1 : place st.slot_free_at (sw * SLICES_PER_WEEK)
      (sw * SLICES_PER_WEEK + durationOut ((ew - sw + 1) * SLICES_PER_WEEK)) =
      (none, st.slot_free_at) := by
    unfold place
    rw [hfail]
  have hp2 : place st.slot_free_at
      ((ew + 1) * SLICES_PER_WEEK - durationIn ((ew - sw + 1) * SLICES_PER_WEEK))
      ((ew + 1) * SLICES_PER_WEEK - durationIn ((ew - sw + 1) * SLICES_PER_WEEK) +
        durationIn ((ew - sw + 1) * SLICES_PER_WEEK)) =
      (some s2, st.slot_free_at.set s2
        ((ew + 1) * SLICES_PER_WEEK - durationIn ((ew - sw + 1) * SLICES_PER_WEEK) +
          durationIn ((ew - sw + 1) * SLICES_PER_WEEK))) := by
    unfold place
    rw [hok]
  simp only [allocStep, if_pos hsplit, hp1, hp2]
  exact ⟨trivial, trivial⟩

/-- Witness for C10: all five lanes busy at slice 0, so the fade-out search
of the 10-week span fails, but lane 0 is free by the fade-in start; the
reservation `slot_free_at[0] = 40` survives while the dict stays empty. -/
theorem split_half_failure_keeps_reservation_witness :
    (allocStep ⟨fun _ => none, [1, 1, 1, 1, 1]⟩ ⟨some 0, some 9, 0⟩).alloc =
      (⟨fun _ => none, [1, 1, 1, 1, 1]⟩ : AllocState).alloc ∧
    (allocStep ⟨fun _ => none, [1, 1, 1, 1, 1]⟩ ⟨some 0, some 9, 0⟩).slot_free_at =
      ([1, 1, 1, 1, 1] : List Int).set 0
        (((9 : ℤ) + 1) * SLICES_PER_WEEK -
            durationIn (((9 : ℤ) - 0 + 1) * SLICES_PER_WEEK) +
          durationIn (((9 : ℤ) - 0 + 1) * SLICES_PER_WEEK)) :=
  split_half_failure_keeps_reservation ⟨fun _ => none, [1, 1, 1, 1, 1]⟩
    ⟨some 0, some 9, 0⟩ 0 9 0 rfl rfl (by decide) (by decide) (by decide)

/-! ## Lemmas about the first-fit search -/

lemma getD_set_self (l : List Int) (i : Nat) (v : Int) (h : i < l.length) :
    (l.set i v).getD i 0 = v := by
  rw [List.getD_eq_getElem?_getD, List.getElem?_set_self]
  · rfl
  · exact h

lemma getD_set_ne (l : List Int) (i j : Nat) (v : Int) (h : i ≠ j) :
    (l.set i v).getD j 0 = l.getD j 0 := by
  rw [List.getD_eq_getElem?_getD, List.getElem?_set_ne h, ← List.getD_eq_getElem?_getD]

lemma findFrom_some : ∀ (l : List Int) (a : Int) (k s : Nat),
    findFrom l a k = some s →
    k ≤ s ∧ s - k < l.length ∧ l.getD (s - k) 0 ≤ a
  | [], a, k, s, h => by simp [findFrom] at h
  | f :: rest, a, k, s, h => by
      unfold findFrom at h
      by_cases hf : f ≤ a
      · rw [if_pos hf] at h
        obtain rfl := Option.some_inj.mp h
        refine ⟨le_refl _, by simp, ?_⟩
        rw [Nat.sub_self]
        simpa using hf
      · rw [if_neg hf] at h
        obtain ⟨h1, h2, h3⟩ := findFrom_some rest a (k + 1) s h
        refine ⟨by omega, by simp; omega, ?_⟩
        have hsk : s - k = (s - (k + 1)) + 1 := by omega
        rw [hsk, List.getD_cons_succ]
        exact h3

lemma findFreeSlot_some (free : List Int) (a : Int) (s : Nat)
    (h : findFreeSlot free a = some s) :
    s < free.length ∧ free.getD s 0 ≤ a := by
  obtain ⟨_, h2, h3⟩ := findFrom_some free a 0 s h
  rw [Nat.sub_zero] at h2 h3
  exact ⟨h2, h3⟩

/-- C2 (amended): a split span that is allocated both halves does produce two
occupied regions separated by a gap of at least one slice, but the allocator
immediately reserves the fade-in lane up to the end of the fade-in region
(`slot_free_at[fade_in_slot] = fade_in_start + duration_in`), so the lane(s)
used by the split span are not left available during the gap; a different
span lying inside the gap is placed on whatever other lane first-fit finds
(see the counterexample for the original claim). -/
theorem split_gap_amended (st : AllocState) (sp : Span) (sw ew : Int) (s1 s2 : Nat)
    (h1 : sp.start_week = some sw) (h2 : sp.end_week = some ew)
    (hsplit : durationOut ((ew - sw + 1) * SLICES_PER_WEEK) +
        durationIn ((ew - sw + 1) * SLICES_PER_WEEK) <
      (ew - sw + 1) * SLICES_PER_WEEK)
    (hs1 : findFreeSlot st.slot_free_at (sw * SLICES_PER_WEEK) = some s1)
    (hs2 : findFreeSlot (st.slot_free_at.set s1
        (sw * SLICES_PER_WEEK + durationOut ((ew - sw + 1) * SLICES_PER_WEEK)))
        ((ew + 1) * SLICES_PER_WEEK -
          durationIn ((ew - sw + 1) * SLICES_PER_WEEK)) = some s2) :
    (allocStep st sp).alloc sp.entry_idx = some (SlotInfo.split s1 s2) ∧
    sw * SLICES_PER_WEEK + durationOut ((ew - sw + 1) * SLICES_PER_WEEK) + 1 ≤
      (ew + 1) * SLICES_PER_WEEK - durationIn ((ew - sw + 1) * SLICES_PER_WEEK) ∧
    (allocStep st sp).slot_free_at.getD s2 0 = (ew + 1) * SLICES_PER_WEEK := by
  obtain ⟨os, oe, idx⟩ := sp
  cases h1
  cases h2
  have hp1 : place st.slot_free_at (sw * SLICES_PER_WEEK)
      (sw * SLICES_PER_WEEK + durationOut ((ew - sw + 1) * SLICES_PER_WEEK)) =
      (some s1, st.slot_free_at.set s1
        (sw * SLICES_PER_WEEK + durationOut ((ew - sw + 1) * SLICES_PER_WEEK))) := by
    unfold place
    rw [hs1]
  have hp2 : place (st.slot_free_at.set s1
      (sw * SLICES_PER_WEEK + durationOut ((ew - sw + 1) * SLICES_PER_WEEK)))
      ((ew + 1) * SLICES_PER_WEEK - durationIn ((ew - sw + 1) * SLICES_PER_WEEK))
      ((ew + 1) * SLICES_PER_WEEK - durationIn ((ew - sw + 1) * SLICES_PER_WEEK) +
        durationIn ((ew - sw + 1) * SLICES_PER_WEEK)) =
      (some s2, (st.slot_free_at.set s1
        (sw * SLICES_PER_WEEK + durationOut ((ew - sw + 1) * SLICES_PER_WEEK))).set s2
        ((ew + 1) * SLICES_PER_WEEK - durationIn ((ew - sw + 1) * SLICES_PER_WEEK) +
          durationIn ((ew - sw + 1) * SLICES_PER_WEEK))) := by
    unfold place
    rw [hs2]
  have hlen2 : s2 < (st.slot_free_at.set s1
      (sw * SLICES_PER_WEEK + durationOut ((ew - sw + 1) * SLICES_PER_WEEK))).length :=
    (findFreeSlot_some _ _ _ hs2).1
  have hds : (ew + 1) * SLICES_PER_WEEK =
      sw * SLICES_PER_WEEK + (ew - sw + 1) * SLICES_PER_WEEK := by
    unfold SLICES_PER_WEEK
    ring
  refine ⟨?_, by omega, ?_⟩
  · simp only [allocStep, if_pos hsplit, hp1, hp2, dictInsert]
    simp
  · simp only [allocStep, if_pos hsplit, hp1, hp2]
    rw [getD_set_self _ _ _ (by simpa using hlen2)]
    omega

/-- Witness for C2 (amended): the 10-week span from the Python test
`test_allocate_slots_long_span_reuse`, allocated from the initial state. -/
theorem split_gap_amended_witness :
    (allocStep initAllocState ⟨some 0, some 9, 0⟩).alloc
        (Span.entry_idx ⟨some 0, some 9, 0⟩) = some (SlotInfo.split 0 0) ∧
    (0 : ℤ) * SLICES_PER_WEEK + durationOut (((9 : ℤ) - 0 + 1) * SLICES_PER_WEEK) + 1 ≤
      ((9 : ℤ) + 1) * SLICES_PER_WEEK - durationIn (((9 : ℤ) - 0 + 1) * SLICES_PER_WEEK) ∧
    (allocStep initAllocState ⟨some 0, some 9, 0⟩).slot_free_at.getD 0 0 =
      ((9 : ℤ) + 1) * SLICES_PER_WEEK :=
  split_gap_amended initAllocState ⟨some 0, some 9, 0⟩ 0 9 0 0 rfl rfl
    (by decide) (by decide) (by decide)

/-- Counterexample to C2 as stated: the 10-week split span `A` (entry 0) is
allocated `fade_out_slot = fade_in_slot = 0`, with fade-out region `[0, 16)`,
fade-in region `[24, 40)` and gap `[16, 24)`; the span `B` (entry 1) occupies
`[20, 24)`, inside the gap, yet the allocator places `B` on lane 1 — lane 0,
the only lane `A` uses, is already marked busy until slice 40, so it is not
available during the gap. -/
theorem split_gap_lane_not_reused :
    allocateSlots [⟨some 0, some 9, 0⟩, ⟨some 5, some 5, 1⟩] 0 =
      some (SlotInfo.split 0 0) ∧
    allocateSlots [⟨some 0, some 9, 0⟩, ⟨some 5, some 5, 1⟩] 1 =
      some (SlotInfo.single 1) ∧
    (List.foldl allocStep initAllocState
        [⟨some 0, some 9, 0⟩, ⟨some 5, some 5, 1⟩]).slot_free_at =
      [40, 24, 0, 0, 0] := by
  refine ⟨?_, ?_, ?_⟩ <;> decide

/-! ## Lemmas about the sort (`_generate_bars` lines 281-292) -/

lemma keyLt_iff_keyOf (a b : Span) : keyLt a b ↔ keyOf a < keyOf b := by
  unfold keyLt keyOf
  rw [Prod.Lex.lt_iff]

lemma keyLe_iff_keyOf (a b : Span) : keyLe a b ↔ keyOf a ≤ keyOf b := by
  unfold keyLe
  rw [keyLt_iff_keyOf, not_lt]

lemma mem_insertSpan (sp y : Span) :
    ∀ (l : List Span), y ∈ insertSpan sp l ↔ y = sp ∨ y ∈ l
  | [] => by simp [insertSpan]
  | x :: xs => by
      unfold insertSpan
      by_cases h : keyLt sp x
      · rw [if_pos h]
        simp [List.mem_cons]
      · rw [if_neg h]
        rw [List.mem_cons, mem_insertSpan sp y xs, List.mem_cons]
        tauto

lemma insertSpan_pairwise (sp : Span) :
    ∀ (l : List Span), l.Pairwise keyLe → (insertSpan sp l).Pairwise keyLe
  | [], _ => by simp [insertSpan]
  | x :: xs, h => by
      unfold insertSpan
      obtain ⟨hx, hxs⟩ := List.pairwise_cons.mp h
      by_cases hlt : keyLt sp x
      · rw [if_pos hlt]
        refine List.pairwise_cons.mpr ⟨?_, h⟩
        intro y hy
        rcases List.mem_cons.mp hy with rfl | hy'
        · rw [keyLe_iff_keyOf]
          exact le_of_lt ((keyLt_iff_keyOf sp y).mp hlt)
        · have hl1 := (keyLt_iff_keyOf sp x).mp hlt
          have hl2 := (keyLe_iff_keyOf x y).mp (hx y hy')
          rw [keyLe_iff_keyOf]
          exact le_of_lt (lt_of_lt_of_le hl1 hl2)
      · rw [if_neg hlt]
        refine List.pairwise_cons.mpr ⟨?_, insertSpan_pairwise sp xs hxs⟩
        intro y hy
        rcases (mem_insertSpan sp y xs).mp hy with rfl | hy'
        · exact hlt
        · exact hx y hy'

lemma insertSpan_perm (sp : Span) :
    ∀ (l : List Span), List.Perm (insertSpan sp l) (sp :: l)
  | [] => List.Perm.refl _
  | x :: xs => by
      unfold insertSpan
      by_cases h : keyLt sp x
      · rw [if_pos h]
      · rw [if_neg h]
        exact ((insertSpan_perm sp xs).cons x).trans (List.Perm.swap sp x xs)

lemma foldl_insert_perm :
    ∀ (l acc : List Span),
      List.Perm (l.foldl (fun a sp => insertSpan sp a) acc) (acc ++ l)
  | [], acc => by simp
  | sp :: rest, acc => by
      have h1 := foldl_insert_perm rest (insertSpan sp acc)
      have h2 : List.Perm (insertSpan sp acc ++ rest) ((sp :: acc) ++ rest) :=
        (insertSpan_perm sp acc).append_right rest
      have h3 : List.Perm ((sp :: acc) ++ rest) (acc ++ sp :: rest) :=
        List.perm_middle.symm
      exact (h1.trans h2).trans h3

lemma foldl_insert_pairwise :
    ∀ (l acc : List Span), acc.Pairwise keyLe →
      ((l.foldl (fun a sp => insertSpan sp a) acc)).Pairwise keyLe
  | [], _, h => h
  | sp :: rest, acc, h =>
      foldl_insert_pairwise rest _ (insertSpan_pairwise sp acc h)

lemma filter_insertSpan (sp : Span) (k : Lex (WithTop Int × WithTop Int)) :
    ∀ (l : List Span), l.Pairwise keyLe →
      (insertSpan sp l).filter (fun x => decide (keyOf x = k)) =
        if keyOf sp = k then
          l.filter (fun x => decide (keyOf x = k)) ++ [sp]
        else l.filter (fun x => decide (keyOf x = k))
  | [], _ => by
      by_cases hk : keyOf sp = k
      · rw [if_pos hk]
        simp [insertSpan, hk]
      · rw [if_neg hk]
        simp [insertSpan, hk]
  | x :: xs, h => by
      obtain ⟨hx, hxs⟩ := List.pairwise_cons.mp h
      unfold insertSpan
      by_cases hlt : keyLt sp x
      · rw [if_pos hlt]
        by_cases hk : keyOf sp = k
        · rw [if_pos hk]
          have hnil : (x :: xs).filter (fun y => decide (keyOf y = k)) = [] := by
            rw [List.filter_eq_nil_iff]
            intro y hy
            have hlty : keyOf sp < keyOf y := by
              rcases List.mem_cons.mp hy with rfl | hy'
              · exact (keyLt_iff_keyOf sp y).mp hlt
              · exact lt_of_lt_of_le ((keyLt_iff_keyOf sp x).mp hlt)
                  ((keyLe_iff_keyOf x y).mp (hx y hy'))
            simp only [decide_eq_true_eq]
            intro hek
            rw [hek, ← hk] at hlty
            exact lt_irrefl _ hlty
          rw [List.filter_cons_of_pos (by simp [hk]), hnil]
          rfl
        · rw [if_neg hk]
          rw [List.filter_cons_of_neg (by simp [hk])]
      · rw [if_neg hlt]
        have ih := filter_insertSpan sp k xs hxs
        by_cases hk : keyOf sp = k
        · rw [if_pos hk] at ih ⊢
          by_cases hxk : keyOf x = k
          · rw [List.filter_cons_of_pos (by simp [hxk]),
              List.filter_cons_of_pos (by simp [hxk]), ih]
            rfl
          · rw [List.filter_cons_of_neg (by simp [hxk]),
              List.filter_cons_of_neg (by simp [hxk]), ih]
        · rw [if_neg hk] at ih ⊢
          by_cases hxk : keyOf x = k
          · rw [List.filter_cons_of_pos (by simp [hxk]),
              List.filter_cons_of_pos (by simp [hxk]), ih]
          · rw [List.filter_cons_of_neg (by simp [hxk]),
              List.filter_cons_of_neg (by simp [hxk]), ih]

lemma filter_foldl_insert (k : Lex (WithTop Int × WithTop Int)) :
    ∀ (l acc : List Span), acc.Pairwise keyLe →
      (l.foldl (fun a sp => insertSpan sp a) acc).filter
          (fun x => decide (keyOf x = k)) =
        acc.filter (fun x => decide (keyOf x = k)) ++
          l.filter (fun x => decide (keyOf x = k))
  | [], acc, _ => by simp
  | sp :: rest, acc, h => by
      have ih := filter_foldl_insert k rest (insertSpan sp acc)
        (insertSpan_pairwise sp acc h)
      have hins := filter_insertSpan sp k acc h
      show (rest.foldl (fun a sp => insertSpan sp a) (insertSpan sp acc)).filter
          (fun x => decide (keyOf x = k)) = _
      rw [ih, hins]
      by_cases hk : keyOf sp = k
      · rw [if_pos hk, List.filter_cons_of_pos (by simp [hk]), List.append_assoc,
          List.singleton_append]
      · rw [if_neg hk, List.filter_cons_of_neg (by simp [hk])]

/-- C8 (amended): before allocation the spans are stably sorted by the
lexicographic key `(start_week if known else end_week else +inf,
end_week if known else +inf)` — for a finish-only span the key is its end
week itself, not the inferred occupy start.  The sort output is
key-nondecreasing, a permutation of the input, and stable (spans of equal
key appear in input order). -/
theorem sortSpans_sorted_stable (l : List Span) :
    (sortSpans l).Pairwise keyLe ∧
    List.Perm (sortSpans l) l ∧
    ∀ k : Lex (WithTop Int × WithTop Int),
      (sortSpans l).filter (fun x => decide (keyOf x = k)) =
        l.filter (fun x => decide (keyOf x = k)) := by
  unfold sortSpans
  refine ⟨foldl_insert_pairwise l [] (by simp), ?_, ?_⟩
  · simpa using foldl_insert_perm l []
  · intro k
    simpa using filter_foldl_insert k l [] (by simp)

/-- Counterexample to C8 as stated: the finish-only span (entry 0, end week
5) has inferred earliest occupied slice 8, earlier than the two-sided span
(entry 1, weeks 3-3, earliest occupied slice 12), yet the code's sort places
the two-sided span first, because it keys finish-only spans by their end
week (5 > 3).  The output is not ordered by earliest occupied unit. -/
theorem sortSpans_not_by_occupy_start :
    sortSpans [⟨none, some 5, 0⟩, ⟨some 3, some 3, 1⟩] =
      [⟨some 3, some 3, 1⟩, ⟨none, some 5, 0⟩] ∧
    specEarliestOccupied ⟨none, some 5, 0⟩ <
      specEarliestOccupied ⟨some 3, some 3, 1⟩ ∧
    ¬ (List.Pairwise (fun a b => specEarliestOccupied a ≤ specEarliestOccupied b)
        (sortSpans [⟨none, some 5, 0⟩, ⟨some 3, some 3, 1⟩])) := by
  refine ⟨?_, ?_, ?_⟩ <;> decide

/-! ## Lemmas for the capacity scenario -/

lemma findFreeSlot_five (f0 f1 f2 f3 f4 a : Int) :
    findFreeSlot [f0, f1, f2, f3, f4] a =
      if f0 ≤ a then some 0 else if f1 ≤ a then some 1
      else if f2 ≤ a then some 2 else if f3 ≤ a then some 3
      else if f4 ≤ a then some 4 else none := by
  rfl

lemma slot_busy (x y : Int) (h : y ≤ x) :
    ¬ ((x + 1) * SLICES_PER_WEEK ≤ y * SLICES_PER_WEEK) := by
  unfold SLICES_PER_WEEK
  omega

lemma slot_free (y : Int) (h : 0 ≤ y) : (0 : Int) ≤ y * SLICES_PER_WEEK := by
  unfold SLICES_PER_WEEK
  omega

lemma not_split_of_short (sw ew : Int) (hle : sw ≤ ew)
    (hshort : (ew - sw + 1) * SLICES_PER_WEEK ≤
      FADE_WEEKS_IN_PROGRESS * SLICES_PER_WEEK +
        FADE_WEEKS_FINISH_ONLY * SLICES_PER_WEEK) :
    ¬ (durationOut ((ew - sw + 1) * SLICES_PER_WEEK) +
        durationIn ((ew - sw + 1) * SLICES_PER_WEEK) <
      (ew - sw + 1) * SLICES_PER_WEEK) := by
  rw [duration_in_short sw ew hle hshort, duration_out_short sw ew hle hshort]
  have h4 : (ew - sw + 1) * SLICES_PER_WEEK = (ew - sw + 1) * 4 := rfl
  rw [h4]
  omega

lemma allocStep_short_some (st : AllocState) (sp : Span) (sw ew : Int) (s : Nat)
    (h1 : sp.start_week = some sw) (h2 : sp.end_week = some ew)
    (hle : sw ≤ ew)
    (hshort : (ew - sw + 1) * SLICES_PER_WEEK ≤
      FADE_WEEKS_IN_PROGRESS * SLICES_PER_WEEK +
        FADE_WEEKS_FINISH_ONLY * SLICES_PER_WEEK)
    (hs : findFreeSlot st.slot_free_at (sw * SLICES_PER_WEEK) = some s) :
    allocStep st sp = ⟨dictInsert st.alloc sp.entry_idx (SlotInfo.single s),
      st.slot_free_at.set s ((ew + 1) * SLICES_PER_WEEK)⟩ := by
  obtain ⟨os, oe, idx⟩ := sp
  cases h1
  cases h2
  have hval : sw * SLICES_PER_WEEK + (ew - sw + 1) * SLICES_PER_WEEK =
      (ew + 1) * SLICES_PER_WEEK := by
    unfold SLICES_PER_WEEK
    ring
  simp only [allocStep, if_neg (not_split_of_short sw ew hle hshort), place, hs, hval]

lemma allocStep_short_none (st : AllocState) (sp : Span) (sw ew : Int)
    (h1 : sp.start_week = some sw) (h2 : sp.end_week = some ew)
    (hle : sw ≤ ew)
    (hshort : (ew - sw + 1) * SLICES_PER_WEEK ≤
      FADE_WEEKS_IN_PROGRESS * SLICES_PER_WEEK +
        FADE_WEEKS_FINISH_ONLY * SLICES_PER_WEEK)
    (hs : findFreeSlot st.slot_free_at (sw * SLICES_PER_WEEK) = none) :
    allocStep st sp = st := by
  obtain ⟨os, oe, idx⟩ := sp
  cases h1
  cases h2
  simp only [allocStep, if_neg (not_split_of_short sw ew hle hshort), place, hs]

/-- C3 (amended): with five pairwise fully-overlapping short (non-split)
spans plus one more short span overlapping them all, the allocator assigns
exactly the five first-processed spans, on lanes 0-4, and omits the sixth
from the returned dict; allocation is a total function, so capacity
exhaustion never raises.  (With split spans the original claim fails, see
the counterexample: a fade-out half-reservation can release a lane early
enough for the sixth span.) -/
theorem capacity_exactly_five (b e : Fin 6 → Int) (idx : Fin 6 → Nat)
    (hb : ∀ k, 0 ≤ b k) (hbe : ∀ k, b k ≤ e k)
    (hshort : ∀ k, (e k - b k + 1) * SLICES_PER_WEEK ≤
      FADE_WEEKS_IN_PROGRESS * SLICES_PER_WEEK +
        FADE_WEEKS_FINISH_ONLY * SLICES_PER_WEEK)
    (hover : ∀ j k, j ≠ k → b j ≤ e k)
    (hidx : Function.Injective idx) :
    allocateSlots [⟨some (b 0), some (e 0), idx 0⟩, ⟨some (b 1), some (e 1), idx 1⟩, ⟨some (b 2), some (e 2), idx 2⟩, ⟨some (b 3), some (e 3), idx 3⟩, ⟨some (b 4), some (e 4), idx 4⟩, ⟨some (b 5), some (e 5), idx 5⟩] (idx 0) =
      some (SlotInfo.single 0) ∧
    allocateSlots [⟨some (b 0), some (e 0), idx 0⟩, ⟨some (b 1), some (e 1), idx 1⟩, ⟨some (b 2), some (e 2), idx 2⟩, ⟨some (b 3), some (e 3), idx 3⟩, ⟨some (b 4), some (e 4), idx 4⟩, ⟨some (b 5), some (e 5), idx 5⟩] (idx 1) =
      some (SlotInfo.single 1) ∧
    allocateSlots [⟨some (b 0), some (e 0), idx 0⟩, ⟨some (b 1), some (e 1), idx 1⟩, ⟨some (b 2), some (e 2), idx 2⟩, ⟨some (b 3), some (e 3), idx 3⟩, ⟨some (b 4), some (e 4), idx 4⟩, ⟨some (b 5), some (e 5), idx 5⟩] (idx 2) =
      some (SlotInfo.single 2) ∧
    allocateSlots [⟨some (b 0), some (e 0), idx 0⟩, ⟨some (b 1), some (e 1), idx 1⟩, ⟨some (b 2), some (e 2), idx 2⟩, ⟨some (b 3), some (e 3), idx 3⟩, ⟨some (b 4), some (e 4), idx 4⟩, ⟨some (b 5), some (e 5), idx 5⟩] (idx 3) =
      some (SlotInfo.single 3) ∧
    allocateSlots [⟨some (b 0), some (e 0), idx 0⟩, ⟨some (b 1), some (e 1), idx 1⟩, ⟨some (b 2), some (e 2), idx 2⟩, ⟨some (b 3), some (e 3), idx 3⟩, ⟨some (b 4), some (e 4), idx 4⟩, ⟨some (b 5), some (e 5), idx 5⟩] (idx 4) =
      some (SlotInfo.single 4) ∧
    allocateSlots [⟨some (b 0), some (e 0), idx 0⟩, ⟨some (b 1), some (e 1), idx 1⟩, ⟨some (b 2), some (e 2), idx 2⟩, ⟨some (b 3), some (e 3), idx 3⟩, ⟨some (b 4), some (e 4), idx 4⟩, ⟨some (b 5), some (e 5), idx 5⟩] (idx 5) = none := by
  have hne : ∀ j k : Fin 6, j ≠ k → idx j ≠ idx k := fun j k hjk h => hjk (hidx h)
  have hf0 : findFreeSlot [0, 0, 0, 0, 0] (b 0 * SLICES_PER_WEEK) = some 0 := by
    rw [findFreeSlot_five, if_pos (slot_free (b 0) (hb 0))]
  have hA0 : allocStep initAllocState ⟨some (b 0), some (e 0), idx 0⟩ =
      ⟨dictInsert (initAllocState.alloc) (idx 0) (SlotInfo.single 0), [(e 0 + 1) * SLICES_PER_WEEK, 0, 0, 0, 0]⟩ := by
    rw [allocStep_short_some initAllocState _ (b 0) (e 0) 0 rfl rfl (hbe 0) (hshort 0) hf0]
    rfl
  have hf1 : findFreeSlot [(e 0 + 1) * SLICES_PER_WEEK, 0, 0, 0, 0] (b 1 * SLICES_PER_WEEK) = some 1 := by
    rw [findFreeSlot_five,
      if_neg (slot_busy (e 0) (b 1) (hover 1 0 (by decide))),
      if_pos (slot_free (b 1) (hb 1))]
  have hA1 : allocStep ⟨dictInsert (initAllocState.alloc) (idx 0) (SlotInfo.single 0), [(e 0 + 1) * SLICES_PER_WEEK, 0, 0, 0, 0]⟩ ⟨some (b 1), some (e 1), idx 1⟩ =
      ⟨dictInsert (dictInsert (initAllocState.alloc) (idx 0) (SlotInfo.single 0)) (idx 1) (SlotInfo.single 1), [(e 0 + 1) * SLICES_PER_WEEK, (e 1 + 1) * SLICES_PER_WEEK, 0, 0, 0]⟩ := by
    rw [allocStep_short_some _ _ (b 1) (e 1) 1 rfl rfl (hbe 1) (hshort 1) hf1]
    rfl
  have hf2 : findFreeSlot [(e 0 + 1) * SLICES_PER_WEEK, (e 1 + 1) * SLICES_PER_WEEK, 0, 0, 0] (b 2 * SLICES_PER_WEEK) = some 2 := by
    rw [findFreeSlot_five,
      if_neg (slot_busy (e 0) (b 2) (hover 2 0 (by decide))),
      if_neg (slot_busy (e 1) (b 2) (hover 2 1 (by decide))),
      if_pos (slot_free (b 2) (hb 2))]
  have hA2 : allocStep ⟨dictInsert (dictInsert (initAllocState.alloc) (idx 0) (SlotInfo.single 0)) (idx 1) (SlotInfo.single 1), [(e 0 + 1) * SLICES_PER_WEEK, (e 1 + 1) * SLICES_PER_WEEK, 0, 0, 0]⟩ ⟨some (b 2), some (e 2), idx 2⟩ =
      ⟨dictInsert (dictInsert (dictInsert (initAllocState.alloc) (idx 0) (SlotInfo.single 0)) (idx 1) (SlotInfo.single 1)) (idx 2) (SlotInfo.single 2), [(e 0 + 1) * SLICES_PER_WEEK, (e 1 + 1) * SLICES_PER_WEEK, (e 2 + 1) * SLICES_PER_WEEK, 0, 0]⟩ := by
    rw [allocStep_short_some _ _ (b 2) (e 2) 2 rfl rfl (hbe 2) (hshort 2) hf2]
    rfl
  have hf3 : findFreeSlot [(e 0 + 1) * SLICES_PER_WEEK, (e 1 + 1) * SLICES_PER_WEEK, (e 2 + 1) * SLICES_PER_WEEK, 0, 0] (b 3 * SLICES_PER_WEEK) = some 3 := by
    rw [findFreeSlot_five,
      if_neg (slot_busy (e 0) (b 3) (hover 3 0 (by decide))),
      if_neg (slot_busy (e 1) (b 3) (hover 3 1 (by decide))),
      if_neg (slot_busy (e 2) (b 3) (hover 3 2 (by decide))),
      if_pos (slot_free (b 3) (hb 3))]
  have hA3 : allocStep ⟨dictInsert (dictInsert (dictInsert (initAllocState.alloc) (idx 0) (SlotInfo.single 0)) (idx 1) (SlotInfo.single 1)) (idx 2) (SlotInfo.single 2), [(e 0 + 1) * SLICES_PER_WEEK, (e 1 + 1) * SLICES_PER_WEEK, (e 2 + 1) * SLICES_PER_WEEK, 0, 0]⟩ ⟨some (b 3), some (e 3), idx 3⟩ =
      ⟨dictInsert (dictInsert (dictInsert (dictInsert (initAllocState.alloc) (idx 0) (SlotInfo.single 0)) (idx 1) (SlotInfo.single 1)) (idx 2) (SlotInfo.single 2)) (idx 3) (SlotInfo.single 3), [(e 0 + 1) * SLICES_PER_WEEK, (e 1 + 1) * SLICES_PER_WEEK, (e 2 + 1) * SLICES_PER_WEEK, (e 3 + 1) * SLICES_PER_WEEK, 0]⟩ := by
    rw [allocStep_short_some _ _ (b 3) (e 3) 3 rfl rfl (hbe 3) (hshort 3) hf3]
    rfl
  have hf4 : findFreeSlot [(e 0 + 1) * SLICES_PER_WEEK, (e 1 + 1) * SLICES_PER_WEEK, (e 2 + 1) * SLICES_PER_WEEK, (e 3 + 1) * SLICES_PER_WEEK, 0] (b 4 * SLICES_PER_WEEK) = some 4 := by
    rw [findFreeSlot_five,
      if_neg (slot_busy (e 0) (b 4) (hover 4 0 (by decide))),
      if_neg (slot_busy (e 1) (b 4) (hover 4 1 (by decide))),
      if_neg (slot_busy (e 2) (b 4) (hover 4 2 (by decide))),
      if_neg (slot_busy (e 3) (b 4) (hover 4 3 (by decide))),
      if_pos (slot_free (b 4) (hb 4))]
  have hA4 : allocStep ⟨dictInsert (dictInsert (dictInsert (dictInsert (initAllocState.alloc) (idx 0) (SlotInfo.single 0)) (idx 1) (SlotInfo.single 1)) (idx 2) (SlotInfo.single 2)) (idx 3) (SlotInfo.single 3), [(e 0 + 1) * SLICES_PER_WEEK, (e 1 + 1) * SLICES_PER_WEEK, (e 2 + 1) * SLICES_PER_WEEK, (e 3 + 1) * SLICES_PER_WEEK, 0]⟩ ⟨some (b 4), some (e 4), idx 4⟩ =
      ⟨dictInsert (dictInsert (dictInsert (dictInsert (dictInsert (initAllocState.alloc) (idx 0) (SlotInfo.single 0)) (idx 1) (SlotInfo.single 1)) (idx 2) (SlotInfo.single 2)) (idx 3) (SlotInfo.single 3)) (idx 4) (SlotInfo.single 4), [(e 0 + 1) * SLICES_PER_WEEK, (e 1 + 1) * SLICES_PER_WEEK, (e 2 + 1) * SLICES_PER_WEEK, (e 3 + 1) * SLICES_PER_WEEK, (e 4 + 1) * SLICES_PER_WEEK]⟩ := by
    rw [allocStep_short_some _ _ (b 4) (e 4) 4 rfl rfl (hbe 4) (hshort 4) hf4]
    rfl
  have hf5 : findFreeSlot [(e 0 + 1) * SLICES_PER_WEEK, (e 1 + 1) * SLICES_PER_WEEK, (e 2 + 1) * SLICES_PER_WEEK, (e 3 + 1) * SLICES_PER_WEEK, (e 4 + 1) * SLICES_PER_WEEK] (b 5 * SLICES_PER_WEEK) = none := by
    rw [findFreeSlot_five,
      if_neg (slot_busy (e 0) (b 5) (hover 5 0 (by decide))),
      if_neg (slot_busy (e 1) (b 5) (hover 5 1 (by decide))),
      if_neg (slot_busy (e 2) (b 5) (hover 5 2 (by decide))),
      if_neg (slot_busy (e 3) (b 5) (hover 5 3 (by decide))),
      if_neg (slot_busy (e 4) (b 5) (hover 5 4 (by decide)))]
  have hA5 : allocStep ⟨dictInsert (dictInsert (dictInsert (dictInsert (dictInsert (initAllocState.alloc) (idx 0) (SlotInfo.single 0)) (idx 1) (SlotInfo.single 1)) (idx 2) (SlotInfo.single 2)) (idx 3) (SlotInfo.single 3)) (idx 4) (SlotInfo.single 4), [(e 0 + 1) * SLICES_PER_WEEK, (e 1 + 1) * SLICES_PER_WEEK, (e 2 + 1) * SLICES_PER_WEEK, (e 3 + 1) * SLICES_PER_WEEK, (e 4 + 1) * SLICES_PER_WEEK]⟩ ⟨some (b 5), some (e 5), idx 5⟩ =
      ⟨dictInsert (dictInsert (dictInsert (dictInsert (dictInsert (initAllocState.alloc) (idx 0) (SlotInfo.single 0)) (idx 1) (SlotInfo.single 1)) (idx 2) (SlotInfo.single 2)) (idx 3) (SlotInfo.single 3)) (idx 4) (SlotInfo.single 4), [(e 0 + 1) * SLICES_PER_WEEK, (e 1 + 1) * SLICES_PER_WEEK, (e 2 + 1) * SLICES_PER_WEEK, (e 3 + 1) * SLICES_PER_WEEK, (e 4 + 1) * SLICES_PER_WEEK]⟩ :=
    allocStep_short_none _ _ (b 5) (e 5) rfl rfl (hbe 5) (hshort 5) hf5
  have hfold : List.foldl allocStep initAllocState [⟨some (b 0), some (e 0), idx 0⟩, ⟨some (b 1), some (e 1), idx 1⟩, ⟨some (b 2), some (e 2), idx 2⟩, ⟨some (b 3), some (e 3), idx 3⟩, ⟨some (b 4), some (e 4), idx 4⟩, ⟨some (b 5), some (e 5), idx 5⟩] =
      ⟨dictInsert (dictInsert (dictInsert (dictInsert (dictInsert (initAllocState.alloc) (idx 0) (SlotInfo.single 0)) (idx 1) (SlotInfo.single 1)) (idx 2) (SlotInfo.single 2)) (idx 3) (SlotInfo.single 3)) (idx 4) (SlotInfo.single 4), [(e 0 + 1) * SLICES_PER_WEEK, (e 1 + 1) * SLICES_PER_WEEK, (e 2 + 1) * SLICES_PER_WEEK, (e 3 + 1) * SLICES_PER_WEEK, (e 4 + 1) * SLICES_PER_WEEK]⟩ := by
    rw [List.foldl_cons, hA0, List.foldl_cons, hA1, List.foldl_cons, hA2, List.foldl_cons, hA3, List.foldl_cons, hA4, List.foldl_cons, hA5, List.foldl_nil]
  refine ⟨?_, ?_, ?_, ?_, ?_, ?_⟩
  · simp only [allocateSlots, hfold, dictInsert]
    rw [if_neg (hne 0 4 (by decide)),
      if_neg (hne 0 3 (by decide)),
      if_neg (hne 0 2 (by decide)),
      if_neg (hne 0 1 (by decide)),
      if_pos trivial]
  · simp only [allocateSlots, hfold, dictInsert]
    rw [if_neg (hne 1 4 (by decide)),
      if_neg (hne 1 3 (by decide)),
      if_neg (hne 1 2 (by decide)),
      if_pos trivial]
  · simp only [allocateSlots, hfold, dictInsert]
    rw [if_neg (hne 2 4 (by decide)),
      if_neg (hne 2 3 (by decide)),
      if_pos trivial]
  · simp only [allocateSlots, hfold, dictInsert]
    rw [if_neg (hne 3 4 (by decide)),
      if_pos trivial]
  · simp only [allocateSlots, hfold, dictInsert]
    rw [if_pos trivial]
  · simp only [allocateSlots, hfold, dictInsert]
    rw [if_neg (hne 5 4 (by decide)),
      if_neg (hne 5 3 (by decide)),
      if_neg (hne 5 2 (by decide)),
      if_neg (hne 5 1 (by decide)),
      if_neg (hne 5 0 (by decide))]
    rfl

/-- Witness for C3 (amended): six identical 3-week spans (the shape of the
Python overflow test); entries 0-4 get lanes 0-4, entry 5 is dropped. -/
theorem capacity_exactly_five_witness :
    allocateSlots [⟨some 0, some 2, 0⟩, ⟨some 0, some 2, 1⟩, ⟨some 0, some 2, 2⟩,
        ⟨some 0, some 2, 3⟩, ⟨some 0, some 2, 4⟩, ⟨some 0, some 2, 5⟩] 0 =
      some (SlotInfo.single 0) ∧
    allocateSlots [⟨some 0, some 2, 0⟩, ⟨some 0, some 2, 1⟩, ⟨some 0, some 2, 2⟩,
        ⟨some 0, some 2, 3⟩, ⟨some 0, some 2, 4⟩, ⟨some 0, some 2, 5⟩] 1 =
      some (SlotInfo.single 1) ∧
    allocateSlots [⟨some 0, some 2, 0⟩, ⟨some 0, some 2, 1⟩, ⟨some 0, some 2, 2⟩,
        ⟨some 0, some 2, 3⟩, ⟨some 0, some 2, 4⟩, ⟨some 0, some 2, 5⟩] 2 =
      some (SlotInfo.single 2) ∧
    allocateSlots [⟨some 0, some 2, 0⟩, ⟨some 0, some 2, 1⟩, ⟨some 0, some 2, 2⟩,
        ⟨some 0, some 2, 3⟩, ⟨some 0, some 2, 4⟩, ⟨some 0, some 2, 5⟩] 3 =
      some (SlotInfo.single 3) ∧
    allocateSlots [⟨some 0, some 2, 0⟩, ⟨some 0, some 2, 1⟩, ⟨some 0, some 2, 2⟩,
        ⟨some 0, some 2, 3⟩, ⟨some 0, some 2, 4⟩, ⟨some 0, some 2, 5⟩] 4 =
      some (SlotInfo.single 4) ∧
    allocateSlots [⟨some 0, some 2, 0⟩, ⟨some 0, some 2, 1⟩, ⟨some 0, some 2, 2⟩,
        ⟨some 0, some 2, 3⟩, ⟨some 0, some 2, 4⟩, ⟨some 0, some 2, 5⟩] 5 = none :=
  capacity_exactly_five (fun _ => 0) (fun _ => 2) Fin.val
    (fun _ => le_refl 0) (fun _ => by norm_num)
    (fun _ => by
      unfold SLICES_PER_WEEK FADE_WEEKS_IN_PROGRESS FADE_WEEKS_FINISH_ONLY
      norm_num)
    (fun _ _ _ => by norm_num) Fin.val_injective

/-- Counterexample to C3 as stated: six spans whose closed week ranges are
pairwise fully overlapping — `(0,6), (0,8), (2,10), (6,8), (6,9), (6,10)` —
yet the allocator assigns slots to all six of them, because the split spans
`(0,8)` and `(2,10)` release their fade-out lanes before their fade-in
regions begin, letting the excess spans slip in. -/
theorem capacity_overflow_counterexample :
    List.Pairwise (fun a b => spansOverlapB a b = true)
      [⟨some 0, some 6, 0⟩, ⟨some 0, some 8, 1⟩, ⟨some 2, some 10, 2⟩,
       ⟨some 6, some 8, 3⟩, ⟨some 6, some 9, 4⟩, ⟨some 6, some 10, 5⟩] ∧
    ∀ i : Nat, i < 6 →
      (allocateSlots [⟨some 0, some 6, 0⟩, ⟨some 0, some 8, 1⟩, ⟨some 2, some 10, 2⟩,
        ⟨some 6, some 8, 3⟩, ⟨some 6, some 9, 4⟩,
        ⟨some 6, some 10, 5⟩] i).isSome = true := by
  constructor
  · decide
  · decide

/-! ## The no-overlap invariant of the slot allocator -/

lemma duration_bounds (ds : Int) (h : 0 ≤ ds) :
    0 ≤ durationIn ds ∧ durationIn ds ≤ ds ∧ 0 ≤ durationOut ds ∧
      durationOut ds ≤ ds - durationIn ds := by
  unfold durationOut durationIn
  unfold FADE_WEEKS_FINISH_ONLY FADE_WEEKS_IN_PROGRESS SLICES_PER_WEEK
  rw [Int.fdiv_eq_ediv _ (by norm_num)]
  omega

lemma getD_set_mono (free : List Int) (s1 t : Nat) (v : Int)
    (hlen : s1 < free.length) (hs : free.getD s1 0 ≤ v) :
    free.getD t 0 ≤ (free.set s1 v).getD t 0 := by
  by_cases h : s1 = t
  · subst h
    rw [getD_set_self free s1 v hlen]
    exact hs
  · rw [getD_set_ne free s1 t v h]

lemma spanWF_two_sided {sw ew : Int} {idx : Nat}
    (h : SpanWF ⟨some sw, some ew, idx⟩ = true) : sw ≤ ew := by
  unfold SpanWF at h
  exact of_decide_eq_true h

lemma allocStep_two_short_some (st : AllocState) (sw ew : Int) (idx : Nat) (s : Nat)
    (hc : ¬ (durationOut ((ew - sw + 1) * SLICES_PER_WEEK) +
        durationIn ((ew - sw + 1) * SLICES_PER_WEEK) < (ew - sw + 1) * SLICES_PER_WEEK))
    (hq : findFreeSlot st.slot_free_at (sw * SLICES_PER_WEEK) = some s) :
    allocStep st ⟨some sw, some ew, idx⟩ =
      ⟨dictInsert st.alloc idx (SlotInfo.single s),
        st.slot_free_at.set s
          (sw * SLICES_PER_WEEK + (ew - sw + 1) * SLICES_PER_WEEK)⟩ := by
  simp only [allocStep, if_neg hc, place, hq]

lemma allocStep_two_short_none (st : AllocState) (sw ew : Int) (idx : Nat)
    (hc : ¬ (durationOut ((ew - sw + 1) * SLICES_PER_WEEK) +
        durationIn ((ew - sw + 1) * SLICES_PER_WEEK) < (ew - sw + 1) * SLICES_PER_WEEK))
    (hq : findFreeSlot st.slot_free_at (sw * SLICES_PER_WEEK) = none) :
    allocStep st ⟨some sw, some ew, idx⟩ = st := by
  simp only [allocStep, if_neg hc, place, hq]

lemma allocStep_split_ss (st : AllocState) (sw ew : Int) (idx : Nat) (s1 s2 : Nat)
    (hc : durationOut ((ew - sw + 1) * SLICES_PER_WEEK) +
        durationIn ((ew - sw + 1) * SLICES_PER_WEEK) < (ew - sw + 1) * SLICES_PER_WEEK)
    (hq1 : findFreeSlot st.slot_free_at (sw * SLICES_PER_WEEK) = some s1)
    (hq2 : findFreeSlot (st.slot_free_at.set s1
        (sw * SLICES_PER_WEEK + durationOut ((ew - sw + 1) * SLICES_PER_WEEK)))
        ((ew + 1) * SLICES_PER_WEEK -
          durationIn ((ew - sw + 1) * SLICES_PER_WEEK)) = some s2) :
    allocStep st ⟨some sw, some ew, idx⟩ =
      ⟨dictInsert st.alloc idx (SlotInfo.split s1 s2),
        (st.slot_free_at.set s1
            (sw * SLICES_PER_WEEK + durationOut ((ew - sw + 1) * SLICES_PER_WEEK))).set s2
          ((ew + 1) * SLICES_PER_WEEK - durationIn ((ew - sw + 1) * SLICES_PER_WEEK) +
            durationIn ((ew - sw + 1) * SLICES_PER_WEEK))⟩ := by
  simp only [allocStep, if_pos hc, place, hq1, hq2]

lemma allocStep_split_sn (st : AllocState) (sw ew : Int) (idx : Nat) (s1 : Nat)
    (hc : durationOut ((ew - sw + 1) * SLICES_PER_WEEK) +
        durationIn ((ew - sw + 1) * SLICES_PER_WEEK) < (ew - sw + 1) * SLICES_PER_WEEK)
    (hq1 : findFreeSlot st.slot_free_at (sw * SLICES_PER_WEEK) = some s1)
    (hq2 : findFreeSlot (st.slot_free_at.set s1
        (sw * SLICES_PER_WEEK + durationOut ((ew - sw + 1) * SLICES_PER_WEEK)))
        ((ew + 1) * SLICES_PER_WEEK -
          durationIn ((ew - sw + 1) * SLICES_PER_WEEK)) = none) :
    allocStep st ⟨some sw, some ew, idx⟩ =
      ⟨st.alloc, st.slot_free_at.set s1
        (sw * SLICES_PER_WEEK + durationOut ((ew - sw + 1) * SLICES_PER_WEEK))⟩ := by
  simp only [allocStep, if_pos hc, place, hq1, hq2]

lemma allocStep_split_ns (st : AllocState) (sw ew : Int) (idx : Nat) (s2 : Nat)
    (hc : durationOut ((ew - sw + 1) * SLICES_PER_WEEK) +
        durationIn ((ew - sw + 1) * SLICES_PER_WEEK) < (ew - sw + 1) * SLICES_PER_WEEK)
    (hq1 : findFreeSlot st.slot_free_at (sw * SLICES_PER_WEEK) = none)
    (hq2 : findFreeSlot st.slot_free_at
        ((ew + 1) * SLICES_PER_WEEK -
          durationIn ((ew - sw + 1) * SLICES_PER_WEEK)) = some s2) :
    allocStep st ⟨some sw, some ew, idx⟩ =
      ⟨st.alloc, st.slot_free_at.set s2
        ((ew + 1) * SLICES_PER_WEEK - durationIn ((ew - sw + 1) * SLICES_PER_WEEK) +
          durationIn ((ew - sw + 1) * SLICES_PER_WEEK))⟩ := by
  simp only [allocStep, if_pos hc, place, hq1, hq2]

lemma allocStep_split_nn (st : AllocState) (sw ew : Int) (idx : Nat)
    (hc : durationOut ((ew - sw + 1) * SLICES_PER_WEEK) +
        durationIn ((ew - sw + 1) * SLICES_PER_WEEK) < (ew - sw + 1) * SLICES_PER_WEEK)
    (hq1 : findFreeSlot st.slot_free_at (sw * SLICES_PER_WEEK) = none)
    (hq2 : findFreeSlot st.slot_free_at
        ((ew + 1) * SLICES_PER_WEEK -
          durationIn ((ew - sw + 1) * SLICES_PER_WEEK)) = none) :
    allocStep st ⟨some sw, some ew, idx⟩ = st := by
  simp only [allocStep, if_pos hc, place, hq1, hq2]

lemma allocStep_inprog_some (st : AllocState) (sw : Int) (idx : Nat) (s : Nat)
    (hq : findFreeSlot st.slot_free_at (sw * SLICES_PER_WEEK) = some s) :
    allocStep st ⟨some sw, none, idx⟩ =
      ⟨dictInsert st.alloc idx (SlotInfo.single s),
        st.slot_free_at.set s
          (sw * SLICES_PER_WEEK + FADE_WEEKS_IN_PROGRESS * SLICES_PER_WEEK)⟩ := by
  simp only [allocStep, place, hq]

lemma allocStep_inprog_none (st : AllocState) (sw : Int) (idx : Nat)
    (hq : findFreeSlot st.slot_free_at (sw * SLICES_PER_WEEK) = none) :
    allocStep st ⟨some sw, none, idx⟩ = st := by
  simp only [allocStep, place, hq]

lemma allocStep_finish_some (st : AllocState) (ew : Int) (idx : Nat) (s : Nat)
    (hq : findFreeSlot st.slot_free_at ((ew + 1) * SLICES_PER_WEEK -
        FADE_WEEKS_FINISH_ONLY * SLICES_PER_WEEK) = some s) :
    allocStep st ⟨none, some ew, idx⟩ =
      ⟨dictInsert st.alloc idx (SlotInfo.single s),
        st.slot_free_at.set s ((ew + 1) * SLICES_PER_WEEK)⟩ := by
  simp only [allocStep, place, hq]

lemma allocStep_finish_none (st : AllocState) (ew : Int) (idx : Nat)
    (hq : findFreeSlot st.slot_free_at ((ew + 1) * SLICES_PER_WEEK -
        FADE_WEEKS_FINISH_ONLY * SLICES_PER_WEEK) = none) :
    allocStep st ⟨none, some ew, idx⟩ = st := by
  simp only [allocStep, place, hq]

/-- Per-step specification of `_allocate_slots`: the free list keeps its
length, every `slot_free_at` entry is nondecreasing, other dict entries are
untouched, and when the step records an assignment for the span, every
occupied range it covers starts at or after the slot's previous free time
and ends at or before its new free time. -/
lemma allocStep_spec (st : AllocState) (sp : Span) (hwf : SpanWF sp = true) :
    (allocStep st sp).slot_free_at.length = st.slot_free_at.length ∧
    (∀ t, st.slot_free_at.getD t 0 ≤ (allocStep st sp).slot_free_at.getD t 0) ∧
    (∀ i, i ≠ sp.entry_idx → (allocStep st sp).alloc i = st.alloc i) ∧
    ((allocStep st sp).alloc sp.entry_idx = st.alloc sp.entry_idx ∨
      ∀ info, (allocStep st sp).alloc sp.entry_idx = some info →
        ∀ r ∈ spanRanges sp info,
          r.slot < st.slot_free_at.length ∧ r.lo ≤ r.hi ∧
          st.slot_free_at.getD r.slot 0 ≤ r.lo ∧
          r.hi ≤ (allocStep st sp).slot_free_at.getD r.slot 0) := by
  obtain ⟨os, oe, idx⟩ := sp
  rcases os with _ | sw <;> rcases oe with _ | ew
  · -- no weeks at all: defensive skip
    exact ⟨rfl, fun t => le_refl _, fun i _ => rfl, Or.inl rfl⟩
  · -- finish-only span
    rcases hq : findFreeSlot st.slot_free_at ((ew + 1) * SLICES_PER_WEEK -
        FADE_WEEKS_FINISH_ONLY * SLICES_PER_WEEK) with _ | s
    · rw [allocStep_finish_none st ew idx hq]
      exact ⟨rfl, fun t => le_refl _, fun i _ => rfl, Or.inl rfl⟩
    · obtain ⟨hslen, hsle⟩ := findFreeSlot_some _ _ _ hq
      rw [allocStep_finish_some st ew idx s hq]
      refine ⟨List.length_set _ _ _, ?_, ?_, Or.inr ?_⟩
      · intro t
        refine getD_set_mono _ _ _ _ hslen (le_trans hsle ?_)
        unfold FADE_WEEKS_FINISH_ONLY SLICES_PER_WEEK
        omega
      · intro i hi
        simp only [dictInsert, if_neg hi]
      · intro info hinfo
        simp only [dictInsert, if_pos] at hinfo
        obtain rfl := Option.some_inj.mp hinfo
        intro r hr
        simp only [spanRanges, List.mem_singleton] at hr
        subst hr
        refine ⟨hslen, ?_, hsle, ?_⟩
        · show (ew + 1) * SLICES_PER_WEEK - FADE_WEEKS_FINISH_ONLY * SLICES_PER_WEEK ≤
            (ew + 1) * SLICES_PER_WEEK
          unfold FADE_WEEKS_FINISH_ONLY SLICES_PER_WEEK
          omega
        · show (ew + 1) * SLICES_PER_WEEK ≤ _
          rw [getD_set_self _ _ _ hslen]
  · -- in-progress span
    rcases hq : findFreeSlot st.slot_free_at (sw * SLICES_PER_WEEK) with _ | s
    · rw [allocStep_inprog_none st sw idx hq]
      exact ⟨rfl, fun t => le_refl _, fun i _ => rfl, Or.inl rfl⟩
    · obtain ⟨hslen, hsle⟩ := findFreeSlot_some _ _ _ hq
      rw [allocStep_inprog_some st sw idx s hq]
      refine ⟨List.length_set _ _ _, ?_, ?_, Or.inr ?_⟩
      · intro t
        refine getD_set_mono _ _ _ _ hslen (le_trans hsle ?_)
        unfold FADE_WEEKS_IN_PROGRESS SLICES_PER_WEEK
        omega
      · intro i hi
        simp only [dictInsert, if_neg hi]
      · intro info hinfo
        simp only [dictInsert, if_pos] at hinfo
        obtain rfl := Option.some_inj.mp hinfo
        intro r hr
        simp only [spanRanges, List.mem_singleton] at hr
        subst hr
        refine ⟨hslen, ?_, hsle, ?_⟩
        · show sw * SLICES_PER_WEEK ≤
            sw * SLICES_PER_WEEK + FADE_WEEKS_IN_PROGRESS * SLICES_PER_WEEK
          unfold FADE_WEEKS_IN_PROGRESS SLICES_PER_WEEK
          omega
        · show sw * SLICES_PER_WEEK + FADE_WEEKS_IN_PROGRESS * SLICES_PER_WEEK ≤ _
          rw [getD_set_self _ _ _ hslen]
  · -- two-sided span
    have hle : sw ≤ ew := spanWF_two_sided hwf
    have hds : (0 : Int) ≤ (ew - sw + 1) * SLICES_PER_WEEK := by
      unfold SLICES_PER_WEEK
      omega
    obtain ⟨hdin0, hdin_le, hdout0, hdout_le⟩ := duration_bounds _ hds
    have hid : (ew + 1) * SLICES_PER_WEEK =
        sw * SLICES_PER_WEEK + (ew - sw + 1) * SLICES_PER_WEEK := by
      unfold SLICES_PER_WEEK
      ring
    by_cases hc : durationOut ((ew - sw + 1) * SLICES_PER_WEEK) +
        durationIn ((ew - sw + 1) * SLICES_PER_WEEK) < (ew - sw + 1) * SLICES_PER_WEEK
    · rcases hq1 : findFreeSlot st.slot_free_at (sw * SLICES_PER_WEEK) with _ | s1
      · rcases hq2 : findFreeSlot st.slot_free_at ((ew + 1) * SLICES_PER_WEEK -
            durationIn ((ew - sw + 1) * SLICES_PER_WEEK)) with _ | s2
        · rw [allocStep_split_nn st sw ew idx hc hq1 hq2]
          exact ⟨rfl, fun t => le_refl _, fun i _ => rfl, Or.inl rfl⟩
        · obtain ⟨h2len, h2le⟩ := findFreeSlot_some _ _ _ hq2
          rw [allocStep_split_ns st sw ew idx s2 hc hq1 hq2]
          refine ⟨List.length_set _ _ _, ?_, fun i _ => rfl, Or.inl rfl⟩
          intro t
          exact getD_set_mono _ _ _ _ h2len (le_trans h2le (by omega))
      · obtain ⟨h1len, h1le⟩ := findFreeSlot_some _ _ _ hq1
        have h1v : st.slot_free_at.getD s1 0 ≤
            sw * SLICES_PER_WEEK + durationOut ((ew - sw + 1) * SLICES_PER_WEEK) := by
          omega
        rcases hq2 : findFreeSlot (st.slot_free_at.set s1
            (sw * SLICES_PER_WEEK + durationOut ((ew - sw + 1) * SLICES_PER_WEEK)))
            ((ew + 1) * SLICES_PER_WEEK -
              durationIn ((ew - sw + 1) * SLICES_PER_WEEK)) with _ | s2
        · rw [allocStep_split_sn st sw ew idx s1 hc hq1 hq2]
          refine ⟨List.length_set _ _ _, ?_, fun i _ => rfl, Or.inl rfl⟩
          intro t
          exact getD_set_mono _ _ _ _ h1len h1v
        · obtain ⟨h2len', h2le'⟩ := findFreeSlot_some _ _ _ hq2
          have h2len : s2 < st.slot_free_at.length := by
            simpa using h2len'
          rw [allocStep_split_ss st sw ew idx s1 s2 hc hq1 hq2]
          have hmono1 : ∀ t, st.slot_free_at.getD t 0 ≤
              (st.slot_free_at.set s1 (sw * SLICES_PER_WEEK +
                durationOut ((ew - sw + 1) * SLICES_PER_WEEK))).getD t 0 :=
            fun t => getD_set_mono _ _ _ _ h1len h1v
          have hmono2 : ∀ t,
              (st.slot_free_at.set s1 (sw * SLICES_PER_WEEK +
                durationOut ((ew - sw + 1) * SLICES_PER_WEEK))).getD t 0 ≤
              ((st.slot_free_at.set s1 (sw * SLICES_PER_WEEK +
                  durationOut ((ew - sw + 1) * SLICES_PER_WEEK))).set s2
                ((ew + 1) * SLICES_PER_WEEK -
                    durationIn ((ew - sw + 1) * SLICES_PER_WEEK) +
                  durationIn ((ew - sw + 1) * SLICES_PER_WEEK))).getD t 0 :=
            fun t => getD_set_mono _ _ _ _ h2len' (le_trans h2le' (by omega))
          refine ⟨by simp [List.length_set], fun t => le_trans (hmono1 t) (hmono2 t),
            ?_, Or.inr ?_⟩
          · intro i hi
            simp only [dictInsert, if_neg hi]
          · intro info hinfo
            simp only [dictInsert, if_pos] at hinfo
            obtain rfl := Option.some_inj.mp hinfo
            intro r hr
            simp only [spanRanges, List.mem_cons, List.not_mem_nil, or_false] at hr
            rcases hr with rfl | rfl
            · refine ⟨h1len, ?_, h1le, ?_⟩
              · show sw * SLICES_PER_WEEK ≤
                  sw * SLICES_PER_WEEK + durationOut ((ew - sw + 1) * SLICES_PER_WEEK)
                omega
              show sw * SLICES_PER_WEEK + durationOut ((ew - sw + 1) * SLICES_PER_WEEK) ≤ _
              by_cases hss : s2 = s1
              · subst hss
                rw [getD_set_self _ _ _ h2len']
                omega
              · rw [getD_set_ne _ _ _ _ hss, getD_set_self _ _ _ h1len]
            · refine ⟨h2len, ?_, le_trans (hmono1 s2) h2le', ?_⟩
              · show (ew + 1) * SLICES_PER_WEEK -
                  durationIn ((ew - sw + 1) * SLICES_PER_WEEK) ≤ (ew + 1) * SLICES_PER_WEEK
                omega
              show (ew + 1) * SLICES_PER_WEEK ≤ _
              rw [getD_set_self _ _ _ h2len']
              omega
    · rcases hq : findFreeSlot st.slot_free_at (sw * SLICES_PER_WEEK) with _ | s
      · rw [allocStep_two_short_none st sw ew idx hc hq]
        exact ⟨rfl, fun t => le_refl _, fun i _ => rfl, Or.inl rfl⟩
      · obtain ⟨hslen, hsle⟩ := findFreeSlot_some _ _ _ hq
        rw [allocStep_two_short_some st sw ew idx s hc hq]
        refine ⟨List.length_set _ _ _, ?_, ?_, Or.inr ?_⟩
        · intro t
          exact getD_set_mono _ _ _ _ hslen (le_trans hsle (by omega))
        · intro i hi
          simp only [dictInsert, if_neg hi]
        · intro info hinfo
          simp only [dictInsert, if_pos] at hinfo
          obtain rfl := Option.some_inj.mp hinfo
          intro r hr
          simp only [spanRanges, List.mem_singleton] at hr
          subst hr
          refine ⟨hslen, ?_, hsle, ?_⟩
          · show sw * SLICES_PER_WEEK ≤
              sw * SLICES_PER_WEEK + (ew - sw + 1) * SLICES_PER_WEEK
            omega
          show sw * SLICES_PER_WEEK + (ew - sw + 1) * SLICES_PER_WEEK ≤ _
          rw [getD_set_self _ _ _ hslen]

lemma inv_init : Inv [] initAllocState := by
  refine ⟨by simp [initAllocState, MAX_SLOTS], ?_, ?_, ?_⟩
  · intro i hi
    simp [initAllocState] at hi
  · intro q hq
    simp at hq
  · intro q hq
    simp at hq

lemma inv_step (spans : List Span) (st : AllocState) (sp : Span)
    (hinv : Inv spans st) (hwf : SpanWF sp = true)
    (hfresh : sp.entry_idx ∉ spans.map Span.entry_idx) :
    Inv (spans ++ [sp]) (allocStep st sp) := by
  obtain ⟨hlen, hdom, hok, hdisj⟩ := hinv
  obtain ⟨hslen, hsmono, hframe, hnewc⟩ := allocStep_spec st sp hwf
  have hne_of_mem : ∀ q ∈ spans, q.entry_idx ≠ sp.entry_idx := by
    intro q hq h
    exact hfresh (h ▸ List.mem_map_of_mem Span.entry_idx hq)
  refine ⟨by rw [hslen, hlen], ?_, ?_, ?_⟩
  · intro i hi
    rw [List.map_append, List.mem_append]
    by_cases h : i = sp.entry_idx
    · right
      subst h
      simp
    · left
      exact hdom i (by rw [← hframe i h]; exact hi)
  · intro q hq info hqinfo r hr
    rw [List.mem_append] at hq
    rcases hq with hq | hq
    · rw [hframe q.entry_idx (hne_of_mem q hq)] at hqinfo
      obtain ⟨ha, hb, hc⟩ := hok q hq info hqinfo r hr
      exact ⟨by rw [hslen]; exact ha, hb, le_trans hc (hsmono r.slot)⟩
    · rw [List.mem_singleton] at hq
      subst hq
      rcases hnewc with hsame | hnewR
      · rw [hsame] at hqinfo
        exact absurd (hdom _ (by rw [hqinfo]; rfl)) hfresh
      · obtain ⟨ha, hb, _, hd⟩ := hnewR info hqinfo r hr
        exact ⟨by rw [hslen]; exact ha, hb, hd⟩
  · intro q hq q' hq' hne info info' hqi hqi' r hr r' hr' hslot
    rw [List.mem_append] at hq hq'
    rcases hq with hq | hq <;> rcases hq' with hq' | hq'
    · rw [hframe q.entry_idx (hne_of_mem q hq)] at hqi
      rw [hframe q'.entry_idx (hne_of_mem q' hq')] at hqi'
      exact hdisj q hq q' hq' hne info info' hqi hqi' r hr r' hr' hslot
    · rw [List.mem_singleton] at hq'
      subst hq'
      rw [hframe q.entry_idx (hne_of_mem q hq)] at hqi
      rcases hnewc with hsame | hnewR
      · rw [hsame] at hqi'
        exact absurd (hdom _ (by rw [hqi']; rfl)) hfresh
      · obtain ⟨_, _, hlo, _⟩ := hnewR info' hqi' r' hr'
        obtain ⟨_, _, hhi⟩ := hok q hq info hqi r hr
        left
        rw [hslot] at hhi
        exact le_trans hhi hlo
    · rw [List.mem_singleton] at hq
      subst hq
      rw [hframe q'.entry_idx (hne_of_mem q' hq')] at hqi'
      rcases hnewc with hsame | hnewR
      · rw [hsame] at hqi
        exact absurd (hdom _ (by rw [hqi]; rfl)) hfresh
      · obtain ⟨_, _, hlo, _⟩ := hnewR info hqi r hr
        obtain ⟨_, _, hhi⟩ := hok q' hq' info' hqi' r' hr'
        right
        rw [← hslot] at hhi
        exact le_trans hhi hlo
    · rw [List.mem_singleton] at hq hq'
      subst hq
      subst hq'
      exact absurd rfl hne

lemma inv_foldl :
    ∀ (l pre : List Span) (st : AllocState),
      Inv pre st → (∀ sp ∈ l, SpanWF sp = true) →
      ((pre ++ l).map Span.entry_idx).Nodup →
      Inv (pre ++ l) (List.foldl allocStep st l)
  | [], pre, st, hinv, _, _ => by simpa using hinv
  | sp :: rest, pre, st, hinv, hwf, hnd => by
      have hfresh : sp.entry_idx ∉ pre.map Span.entry_idx := by
        intro hmem
        rw [List.map_append, List.nodup_append] at hnd
        exact hnd.2.2 hmem (by simp)
      have hstep := inv_step pre st sp hinv (hwf sp (by simp)) hfresh
      have hrec := inv_foldl rest (pre ++ [sp]) (allocStep st sp) hstep
        (fun q hq => hwf q (by simp [hq]))
        (by simpa using hnd)
      simpa using hrec

/-- C1: in the assignment map returned by `_allocate_slots`, any two
occupied slice ranges of distinct spans (with each sub-range of a split span
counting separately) that share a slot are disjoint.  Spans are assumed well
formed (a known start not after a known end) with distinct `entry_idx`
values, as the upstream extraction guarantees. -/
theorem allocate_no_overlap (spans : List Span)
    (hwf : ∀ sp ∈ spans, SpanWF sp = true)
    (hnd : (spans.map Span.entry_idx).Nodup)
    (sa : Span) (ha : sa ∈ spans) (sb : Span) (hb : sb ∈ spans)
    (hne : sa.entry_idx ≠ sb.entry_idx)
    (ia ib : SlotInfo)
    (hia : allocateSlots spans sa.entry_idx = some ia)
    (hib : allocateSlots spans sb.entry_idx = some ib)
    (ra : OccRange) (hra : ra ∈ spanRanges sa ia)
    (rb : OccRange) (hrb : rb ∈ spanRanges sb ib)
    (hslot : ra.slot = rb.slot) :
    rangesDisjoint ra rb := by
  have h := inv_foldl spans [] initAllocState inv_init hwf (by simpa using hnd)
  rw [List.nil_append] at h
  obtain ⟨_, _, _, hdisj⟩ := h
  exact hdisj sa ha sb hb hne ia ib hia hib ra hra rb hrb hslot

/-- Witness for C1: two adjacent 1-week spans share lane 0 with touching,
disjoint ranges `[0, 4)` and `[4, 8)`. -/
theorem allocate_no_overlap_witness :
    rangesDisjoint ⟨0, 4, 0⟩ ⟨4, 8, 0⟩ :=
  allocate_no_overlap [⟨some 0, some 0, 0⟩, ⟨some 1, some 1, 1⟩]
    (by decide) (by decide)
    ⟨some 0, some 0, 0⟩ (by decide) ⟨some 1, some 1, 1⟩ (by decide)
    (by decide) (SlotInfo.single 0) (SlotInfo.single 0)
    (by decide) (by decide)
    ⟨0, 4, 0⟩ (by decide) ⟨4, 8, 0⟩ (by decide) rfl

end MediaViz
